import Mathlib

/-!
# PicoFlasher: the CDC command dispatcher and the streaming flash read

A shallow embedding of `main.c`: the LED blinker `led_blink`, the streaming
engine `stream` and the receive callback `tud_cdc_rx_cb`.

* Bytes are natural numbers (below 256 on the wire).  The answers of external
  functions are natural numbers, wrapped to their C type (`u32`, `u8`) where the
  code receives them; the inbound channel reports the number of buffered bytes,
  which the CDC queue keeps far below `2^32`.
* The firmware's globals and function-local statics are the fields of `State`.
* Everything the firmware calls but does not define (TinyUSB, the NAND and
  ISD1200 drivers, the SDK) is outside `main.c`.  The value-returning functions
  are the fields of `World`, one `World` per invocation of a callback; their
  calls are recorded, with their arguments, in `State.log`.
* The inbound CDC channel is an interface `Cdc`; `fifo` is the byte queue.
* `spec_dispatch` is the dispatcher the spec asks for, a single match over the
  opcode; it is compared with the chains of the source, `dispatch`.
* `main_step` is a step of the loop of `main`; `reset_usb_boot` does not
  return, so nothing runs in a halted state.
-/

namespace PicoFlasher

/-! ## Constants of `main.c` -/

def LED_PIN : Nat := 25

def GET_VERSION : Nat := 0x00
def GET_FLASH_CONFIG : Nat := 0x01
def READ_FLASH : Nat := 0x02
def WRITE_FLASH : Nat := 0x03
def READ_FLASH_STREAM : Nat := 0x04

def ISD1200_INIT : Nat := 0xA0
def ISD1200_DEINIT : Nat := 0xA1
def ISD1200_READ_ID : Nat := 0xA2
def ISD1200_READ_FLASH : Nat := 0xA3
def ISD1200_ERASE_FLASH : Nat := 0xA4
def ISD1200_WRITE_FLASH : Nat := 0xA5
def ISD1200_PLAY_VOICE : Nat := 0xA6
def ISD1200_EXEC_MACRO : Nat := 0xA7
def ISD1200_RESET : Nat := 0xA8

def REBOOT_TO_BOOTLOADER : Nat := 0xFE

/-! ## Machine integers -/

/-- Wrap a natural number to `uint32_t`. -/
def u32 (x : Nat) : Nat := x % 4294967296

/-- Wrap a natural number to `uint8_t`. -/
def u8 (x : Nat) : Nat := x % 256

/-- The four bytes of a `uint32_t` object in memory (little-endian target),
as `tud_cdc_write(&x, 4)` sends them. -/
def le32 (x : Nat) : List Nat :=
  [x % 256, x / 256 % 256, x / 65536 % 256, x / 16777216 % 256]

set_option linter.dupNamespace false in
/-- The packed `struct cmd`: one opcode byte and a 32-bit parameter. -/
structure cmd where
  cmd : Nat
  lba : Nat
deriving DecidableEq, Repr

/-- The value of `sizeof(struct cmd)` under `#pragma pack(push, 1)`:
a `uint8_t` and a `uint32_t`. -/
def sizeof_cmd : Nat := 1 + 4

/-- The `struct cmd` whose object representation is the given bytes, as left by
`tud_cdc_read(&cmd, sizeof(cmd))`: byte 0 is `cmd`, bytes 1..4 are `lba`,
least significant first. -/
def cmd_of_bytes (hdr : List Nat) : cmd :=
  { cmd := hdr.getD 0 0
    lba := u32 (hdr.getD 1 0 + 256 * hdr.getD 2 0 + 65536 * hdr.getD 3 0
             + 16777216 * hdr.getD 4 0) }

/-! ## The outside world -/

/-- What `xbox_nand_read_block(lba, data, spare)` leaves behind: the returned
status and the contents of the 512-byte and 16-byte output areas after the call. -/
structure NandRead where
  status : Nat
  data : List Nat
  spare : List Nat
  data_length : data.length = 0x200
  spare_length : spare.length = 16

/-- The contents of the 512-byte buffer after `isd1200_flash_read(lba, buffer)`. -/
structure IsdPage where
  bytes : List Nat
  bytes_length : bytes.length = 512

/-- The answers of the external functions during one invocation of a callback. -/
structure World where
  /-- The value `board_millis()` returns. -/
  board_millis : Nat
  /-- The indeterminate initial value of the local `uint8_t cmd`, which
  `tud_cdc_peek` leaves untouched when nothing is buffered. -/
  stack_cmd : Nat
  /-- The value `tud_cdc_write_available()` returns. -/
  tud_cdc_write_available : Nat
  xbox_get_flash_config : Nat
  xbox_nand_read_block : Nat → NandRead
  xbox_nand_write_block : Nat → List Nat → List Nat → Nat
  isd1200_init : Bool
  isd1200_read_id : Nat
  isd1200_flash_read : Nat → IsdPage

/-- A call of an external function that acts on the outbound CDC channel, the
NAND flash, the voice chip or the device, with its arguments. -/
inductive Call where
  | tud_cdc_write (bytes : List Nat)
  | tud_cdc_write_flush
  | xbox_get_flash_config
  | xbox_nand_read_block (lba : Nat)
  | xbox_nand_write_block (lba : Nat) (data spare : List Nat)
  | isd1200_init
  | isd1200_deinit
  | isd1200_read_id
  | isd1200_flash_read (lba : Nat)
  | isd1200_chip_erase
  | isd1200_flash_write (lba : Nat) (data : List Nat)
  | isd1200_play_vp (index : Nat)
  | isd1200_exe_vm (index : Nat)
  | isd1200_reset
  | reset_usb_boot
deriving DecidableEq, Repr

/-- The inbound CDC channel as the dispatcher uses it: the number of buffered
bytes, a look at the first one, and a read of up to `n` bytes that returns the
bytes handed over (their number is the returned count) and the channel left. -/
structure Cdc (σ : Type) where
  tud_cdc_available : σ → Nat
  tud_cdc_peek : σ → Option Nat
  tud_cdc_read : σ → Nat → List Nat × σ

/-- The inbound channel as a byte queue. -/
def fifo : Cdc (List Nat) where
  tud_cdc_available rx := rx.length
  tud_cdc_peek rx := rx.head?
  tud_cdc_read rx n := (rx.take n, rx.drop n)

/-- The firmware's state: the inbound channel, the record of external calls,
the three globals of the streaming session, the two statics of `led_blink`
with the values put on the LED pin, and whether `reset_usb_boot` was entered. -/
structure State (σ : Type) where
  rx : σ
  log : List Call
  do_stream : Bool
  stream_offset : Nat
  stream_end : Nat
  start_ms : Nat
  led_state : Bool
  gpio : List (Nat × Bool)
  halted : Bool

/-- Record a call of an external function. -/
def State.call {σ : Type} (s : State σ) (c : Call) : State σ :=
  { s with log := s.log ++ [c] }

/-- How a block of statements ends: control reaches the statement after it, or
the function is left (`return`, or a call that never returns). -/
inductive Flow (α : Type) where
  | next : α → Flow α
  | left : α → Flow α

/-- Sequencing of statement blocks. -/
def Flow.andThen {α : Type} (f : Flow α) (g : α → Flow α) : Flow α :=
  match f with
  | .next a => g a
  | .left a => .left a

/-! ## `led_blink` -/

def led_blink {σ : Type} (w : World) (s : State σ) : State σ :=
  let now := u32 w.board_millis
  if u32 (now + 4294967296 - u32 s.start_ms) < 50 then s
  else
    { s with
      start_ms := now
      gpio := s.gpio ++ [(LED_PIN, s.led_state)]
      led_state := !s.led_state }

/-! ## `stream` -/

def stream {σ : Type} (w : World) (s : State σ) : State σ :=
  if s.do_stream then
    if s.stream_offset ≥ s.stream_end then
      { s with do_stream := false }
    else if u32 w.tud_cdc_write_available < 4 + 0x210 then
      s
    else
      let r := w.xbox_nand_read_block s.stream_offset
      let ret := u32 r.status
      let s := s.call (.xbox_nand_read_block s.stream_offset)
      if ret = 0 then
        { s.call (.tud_cdc_write (le32 ret ++ r.data ++ r.spare)) with
          stream_offset := u32 (s.stream_offset + 1) }
      else
        { s.call (.tud_cdc_write (le32 ret)) with do_stream := false }
  else s

/-! ## `tud_cdc_rx_cb` -/

/-- The block that computes `needed_data` from the peeked byte: two
independent `if` statements. -/
def needed_data (cmd : Nat) : Nat :=
  let needed_data := sizeof_cmd
  let needed_data := if cmd = WRITE_FLASH then needed_data + 0x210 else needed_data
  let needed_data := if cmd = ISD1200_WRITE_FLASH then needed_data + 16 else needed_data
  needed_data

/-- The `if` / `else if` chain that starts at `cmd.cmd == GET_VERSION`. -/
def dispatch_GET_VERSION {σ : Type} (c : Cdc σ) (w : World) (k : cmd) (s : State σ) :
    Flow (State σ) :=
  if k.cmd = GET_VERSION then
    let ver := 2
    .next (s.call (.tud_cdc_write (le32 ver)))
  else if k.cmd = GET_FLASH_CONFIG then
    let fc := u32 w.xbox_get_flash_config
    let s := s.call .xbox_get_flash_config
    .next (s.call (.tud_cdc_write (le32 fc)))
  else if k.cmd = READ_FLASH then
    let r := w.xbox_nand_read_block k.lba
    let ret := u32 r.status
    let s := s.call (.xbox_nand_read_block k.lba)
    let s := s.call (.tud_cdc_write (le32 ret))
    if ret = 0 then .next (s.call (.tud_cdc_write (r.data ++ r.spare)))
    else .next s
  else if k.cmd = WRITE_FLASH then
    let (buffer, rx) := c.tud_cdc_read s.rx 0x210
    let s := { s with rx := rx }
    if buffer.length ≠ 0x210 then .left s
    else
      let data := buffer.take 0x200
      let spare := buffer.drop 0x200
      let ret := u32 (w.xbox_nand_write_block k.lba data spare)
      let s := s.call (.xbox_nand_write_block k.lba data spare)
      .next (s.call (.tud_cdc_write (le32 ret)))
  else if k.cmd = READ_FLASH_STREAM then
    .next { s with do_stream := true, stream_offset := 0, stream_end := k.lba }
  else .next s

/-- The lone `if (cmd.cmd == ISD1200_INIT)`. -/
def dispatch_ISD1200_INIT {σ : Type} (w : World) (k : cmd) (s : State σ) : Flow (State σ) :=
  if k.cmd = ISD1200_INIT then
    let fc := if w.isd1200_init then 0 else 1
    let s := s.call .isd1200_init
    .next (s.call (.tud_cdc_write [fc]))
  else .next s

/-- The chain that starts at `if (cmd.cmd == ISD1200_DEINIT)`. -/
def dispatch_ISD1200_DEINIT {σ : Type} (w : World) (k : cmd) (s : State σ) : Flow (State σ) :=
  if k.cmd = ISD1200_DEINIT then
    let s := s.call .isd1200_deinit
    let fc := 0
    .next (s.call (.tud_cdc_write [fc]))
  else if k.cmd = ISD1200_READ_ID then
    let dev_id := u8 w.isd1200_read_id
    let s := s.call .isd1200_read_id
    .next (s.call (.tud_cdc_write [dev_id]))
  else if k.cmd = ISD1200_READ_FLASH then
    let buffer := (w.isd1200_flash_read k.lba).bytes
    let s := s.call (.isd1200_flash_read k.lba)
    .next (s.call (.tud_cdc_write buffer))
  else .next s

/-- The chain that starts at `if (cmd.cmd == ISD1200_ERASE_FLASH)`. -/
def dispatch_ISD1200_ERASE_FLASH {σ : Type} (c : Cdc σ) (k : cmd) (s : State σ) :
    Flow (State σ) :=
  if k.cmd = ISD1200_ERASE_FLASH then
    let s := s.call .isd1200_chip_erase
    let fc := 0
    .next (s.call (.tud_cdc_write [fc]))
  else if k.cmd = ISD1200_WRITE_FLASH then
    let (buffer, rx) := c.tud_cdc_read s.rx 16
    let s := { s with rx := rx }
    if buffer.length ≠ 16 then .left s
    else
      let s := s.call (.isd1200_flash_write k.lba buffer)
      let ret := 0
      .next (s.call (.tud_cdc_write (le32 ret)))
  else if k.cmd = ISD1200_PLAY_VOICE then
    let s := s.call (.isd1200_play_vp k.lba)
    let fc := 0
    .next (s.call (.tud_cdc_write [fc]))
  else if k.cmd = ISD1200_EXEC_MACRO then
    let s := s.call (.isd1200_exe_vm k.lba)
    let fc := 0
    .next (s.call (.tud_cdc_write [fc]))
  else .next s

/-- The chain that starts at `if (cmd.cmd == ISD1200_RESET)`;
`reset_usb_boot` does not return. -/
def dispatch_ISD1200_RESET {σ : Type} (k : cmd) (s : State σ) : Flow (State σ) :=
  if k.cmd = ISD1200_RESET then
    let s := s.call .isd1200_reset
    let fc := 0
    .next (s.call (.tud_cdc_write [fc]))
  else if k.cmd = REBOOT_TO_BOOTLOADER then
    .left { s.call .reset_usb_boot with halted := true }
  else .next s

/-- The statements of the callback between the header read and the flush: the
five chains, one after the other. -/
def dispatch {σ : Type} (c : Cdc σ) (w : World) (k : cmd) (s : State σ) : Flow (State σ) :=
  ((((dispatch_GET_VERSION c w k s).andThen
    (dispatch_ISD1200_INIT w k)).andThen
    (dispatch_ISD1200_DEINIT w k)).andThen
    (dispatch_ISD1200_ERASE_FLASH c k)).andThen
    (dispatch_ISD1200_RESET k)

/-- The end of the callback: `tud_cdc_write_flush()` when control reaches it. -/
def flush_end {σ : Type} : Flow (State σ) → State σ
  | .next s => s.call .tud_cdc_write_flush
  | .left s => s

/-- The receive callback. -/
def tud_cdc_rx_cb {σ : Type} (c : Cdc σ) (w : World) (s : State σ) : State σ :=
  let s := led_blink w s
  let avilable_data := c.tud_cdc_available s.rx
  let needed_data := needed_data ((c.tud_cdc_peek s.rx).getD w.stack_cmd)
  if avilable_data ≥ needed_data then
    let (hdr, rx) := c.tud_cdc_read s.rx sizeof_cmd
    let s := { s with rx := rx }
    if hdr.length ≠ sizeof_cmd then s
    else flush_end (dispatch c w (cmd_of_bytes hdr) s)
  else s

/-! ## Runs -/

/-- The globals and statics as their initialisers leave them, with the given
bytes buffered on the inbound channel. -/
def power_on (rx : List Nat) : State (List Nat) :=
  { rx := rx, log := [], do_stream := false, stream_offset := 0, stream_end := 0,
    start_ms := 0, led_state := false, gpio := [], halted := false }

/-- Bytes arrive on the inbound queue and the receive callback runs once. -/
def receive (s : State (List Nat)) (d : List Nat × World) : State (List Nat) :=
  tud_cdc_rx_cb fifo d.2 { s with rx := s.rx ++ d.1 }

/-- A sequence of arrivals, one callback invocation after each. -/
def receive_all (s : State (List Nat)) (ds : List (List Nat × World)) : State (List Nat) :=
  ds.foldl receive s

/-- The first `n` calls of `stream()`; call number `i` (from 0) meets the world `env i`. -/
def stream_calls {σ : Type} (env : Nat → World) : Nat → State σ → State σ
  | 0, s => s
  | n + 1, s => stream (env n) (stream_calls env n s)

/-- One call of `stream()` per entry of a schedule of free outbound capacities,
the other answers of the world being fixed. -/
def stream_sched {σ : Type} (w : World) (caps : List Nat) (s : State σ) : State σ :=
  caps.foldl (fun s c => stream { w with tud_cdc_write_available := c } s) s

/-- The calls of a successful stream step at block `i`: the block read and the
write of the 532-byte buffer (status word, data, spare). -/
def stream_frame (w : World) (i : Nat) : List Call :=
  [.xbox_nand_read_block i,
   .tud_cdc_write (le32 0 ++ (w.xbox_nand_read_block i).data ++ (w.xbox_nand_read_block i).spare)]

/-- The calls of the first `n` successful stream steps, block 0 first. -/
def stream_frames (env : Nat → World) (n : Nat) : List Call :=
  (List.range n).flatMap (fun i => stream_frame (env i) i)

/-! ## The dispatcher asked for by the spec -/

/-- The opcodes of the spec's opcode table. -/
inductive Opcode where
  | get_version
  | get_flash_config
  | read_flash
  | write_flash
  | read_flash_stream
  | isd_init
  | isd_deinit
  | isd_read_id
  | isd_read_flash
  | isd_erase_flash
  | isd_write_flash
  | isd_play_voice
  | isd_exec
  | isd_reset
  | reboot_to_bootloader
deriving DecidableEq, Repr

/-- The row of the opcode table that an opcode byte selects, if any. -/
def decode_opcode (b : Nat) : Option Opcode :=
  match b with
  | 0x00 => some .get_version
  | 0x01 => some .get_flash_config
  | 0x02 => some .read_flash
  | 0x03 => some .write_flash
  | 0x04 => some .read_flash_stream
  | 0xA0 => some .isd_init
  | 0xA1 => some .isd_deinit
  | 0xA2 => some .isd_read_id
  | 0xA3 => some .isd_read_flash
  | 0xA4 => some .isd_erase_flash
  | 0xA5 => some .isd_write_flash
  | 0xA6 => some .isd_play_voice
  | 0xA7 => some .isd_exec
  | 0xA8 => some .isd_reset
  | 0xFE => some .reboot_to_bootloader
  | _ => none

/-- The one handler of each row of the opcode table (request payload, action,
response), for a frame with the given parameter. -/
def handler {σ : Type} (c : Cdc σ) (w : World) (parameter : Nat) (s : State σ) :
    Opcode → Flow (State σ)
  | .get_version => .next (s.call (.tud_cdc_write (le32 2)))
  | .get_flash_config =>
    .next ((s.call .xbox_get_flash_config).call
      (.tud_cdc_write (le32 (u32 w.xbox_get_flash_config))))
  | .read_flash =>
    let r := w.xbox_nand_read_block parameter
    let status := u32 r.status
    let s := (s.call (.xbox_nand_read_block parameter)).call (.tud_cdc_write (le32 status))
    if status = 0 then .next (s.call (.tud_cdc_write (r.data ++ r.spare))) else .next s
  | .write_flash =>
    let (payload, rx) := c.tud_cdc_read s.rx 528
    let s := { s with rx := rx }
    if payload.length ≠ 528 then .left s
    else
      let status := u32 (w.xbox_nand_write_block parameter (payload.take 512) (payload.drop 512))
      .next ((s.call (.xbox_nand_write_block parameter (payload.take 512)
        (payload.drop 512))).call (.tud_cdc_write (le32 status)))
  | .read_flash_stream =>
    .next { s with do_stream := true, stream_offset := 0, stream_end := parameter }
  | .isd_init =>
    .next ((s.call .isd1200_init).call (.tud_cdc_write [if w.isd1200_init then 0 else 1]))
  | .isd_deinit => .next ((s.call .isd1200_deinit).call (.tud_cdc_write [0]))
  | .isd_read_id =>
    .next ((s.call .isd1200_read_id).call (.tud_cdc_write [u8 w.isd1200_read_id]))
  | .isd_read_flash =>
    .next ((s.call (.isd1200_flash_read parameter)).call
      (.tud_cdc_write (w.isd1200_flash_read parameter).bytes))
  | .isd_erase_flash => .next ((s.call .isd1200_chip_erase).call (.tud_cdc_write [0]))
  | .isd_write_flash =>
    let (payload, rx) := c.tud_cdc_read s.rx 16
    let s := { s with rx := rx }
    if payload.length ≠ 16 then .left s
    else .next ((s.call (.isd1200_flash_write parameter payload)).call
      (.tud_cdc_write (le32 0)))
  | .isd_play_voice =>
    .next ((s.call (.isd1200_play_vp parameter)).call (.tud_cdc_write [0]))
  | .isd_exec =>
    .next ((s.call (.isd1200_exe_vm parameter)).call (.tud_cdc_write [0]))
  | .isd_reset => .next ((s.call .isd1200_reset).call (.tud_cdc_write [0]))
  | .reboot_to_bootloader => .left { s.call .reset_usb_boot with halted := true }

/-- The dispatch the spec asks for: a single exhaustive match over the opcode
with one handler per case; a byte outside the table has no handler. -/
def spec_dispatch {σ : Type} (c : Cdc σ) (w : World) (k : cmd) (s : State σ) :
    Flow (State σ) :=
  match decode_opcode k.cmd with
  | some op => handler c w k.lba s op
  | none => .next s

/-- The handlers of the source whose condition holds for an opcode byte: one
entry per `if (cmd.cmd == ...)` of the callback, in the order of the source. -/
def handlers_entered (b : Nat) : List Opcode :=
  (if b = GET_VERSION then [Opcode.get_version] else []) ++
  (if b = GET_FLASH_CONFIG then [Opcode.get_flash_config] else []) ++
  (if b = READ_FLASH then [Opcode.read_flash] else []) ++
  (if b = WRITE_FLASH then [Opcode.write_flash] else []) ++
  (if b = READ_FLASH_STREAM then [Opcode.read_flash_stream] else []) ++
  (if b = ISD1200_INIT then [Opcode.isd_init] else []) ++
  (if b = ISD1200_DEINIT then [Opcode.isd_deinit] else []) ++
  (if b = ISD1200_READ_ID then [Opcode.isd_read_id] else []) ++
  (if b = ISD1200_READ_FLASH then [Opcode.isd_read_flash] else []) ++
  (if b = ISD1200_ERASE_FLASH then [Opcode.isd_erase_flash] else []) ++
  (if b = ISD1200_WRITE_FLASH then [Opcode.isd_write_flash] else []) ++
  (if b = ISD1200_PLAY_VOICE then [Opcode.isd_play_voice] else []) ++
  (if b = ISD1200_EXEC_MACRO then [Opcode.isd_exec] else []) ++
  (if b = ISD1200_RESET then [Opcode.isd_reset] else []) ++
  (if b = REBOOT_TO_BOOTLOADER then [Opcode.reboot_to_bootloader] else [])

/-! ## The main loop -/

/-- What one step of `main`'s loop meets: `tud_task()` hands over bytes that
arrived and invokes the receive callback, or the loop calls `stream()`. -/
inductive Tick where
  | rx (bytes : List Nat) (w : World)
  | stream (w : World)

/-- One step of the loop.  Nothing runs once `reset_usb_boot` has been entered. -/
def main_step (s : State (List Nat)) : Tick → State (List Nat)
  | .rx bytes w => if s.halted then s else receive s (bytes, w)
  | .stream w => if s.halted then s else stream w s

/-- Any interleaving of callback invocations and `stream()` calls. -/
def main_run (s : State (List Nat)) (ts : List Tick) : State (List Nat) :=
  ts.foldl main_step s

/-- The bytes handed to `tud_cdc_write` by a sequence of calls, in order. -/
def written : List Call → List Nat
  | [] => []
  | .tud_cdc_write bytes :: cs => bytes ++ written cs
  | _ :: cs => written cs

/-- An inbound channel that hands over at most 64 bytes per read, whatever it
has buffered. -/
def packet_cdc : Cdc (List Nat) where
  tud_cdc_available rx := rx.length
  tud_cdc_peek rx := rx.head?
  tud_cdc_read rx n := (rx.take (min n 64), rx.drop (min n 64))

/-! ## Sample inputs -/

/-- An erased NAND page that reads back with status 0. -/
def sample_block : NandRead :=
  { status := 0, data := List.replicate 0x200 0xFF, spare := List.replicate 16 0xFF,
    data_length := List.length_replicate _ _, spare_length := List.length_replicate _ _ }

/-- An erased voice-chip page. -/
def sample_page : IsdPage :=
  { bytes := List.replicate 512 0xFF, bytes_length := List.length_replicate _ _ }

/-- A world in which every flash operation succeeds and the outbound channel is free. -/
def sample_world : World :=
  { board_millis := 1000, stack_cmd := 0, tud_cdc_write_available := 1024,
    xbox_get_flash_config := 0x00023010,
    xbox_nand_read_block := fun _ => sample_block,
    xbox_nand_write_block := fun _ _ _ => 0,
    isd1200_init := true, isd1200_read_id := 0xE1,
    isd1200_flash_read := fun _ => sample_page }

/-- A page whose read fails with a non-zero status. -/
def sample_failed_block : NandRead :=
  { sample_block with status := 0x8000 }

/-- A world in which every NAND read fails. -/
def sample_failing_world : World :=
  { sample_world with xbox_nand_read_block := fun _ => sample_failed_block }

/-- A 528-byte payload of an erased page: 512 data bytes and 16 spare bytes. -/
def sample_payload : List Nat := List.replicate 528 0xFF

/-! ## Lemmas -/

theorem needed_data_eq (b : Nat) :
    needed_data b = if b = WRITE_FLASH then 533 else if b = ISD1200_WRITE_FLASH then 21 else 5 := by
  simp only [needed_data, sizeof_cmd, WRITE_FLASH, ISD1200_WRITE_FLASH]
  split_ifs <;> omega

theorem led_blink_rx {σ : Type} (w : World) (s : State σ) : (led_blink w s).rx = s.rx := by
  unfold led_blink; simp only []; split_ifs <;> rfl

theorem led_blink_log {σ : Type} (w : World) (s : State σ) : (led_blink w s).log = s.log := by
  unfold led_blink; simp only []; split_ifs <;> rfl

theorem rx_cb_defer (w : World) (s : State (List Nat))
    (h : s.rx.length < needed_data (s.rx.head?.getD w.stack_cmd)) :
    tud_cdc_rx_cb fifo w s = led_blink w s := by
  unfold tud_cdc_rx_cb
  simp only [fifo, led_blink_rx]
  rw [if_neg (by omega)]

theorem rx_cb_ready (w : World) (s : State (List Nat)) (b b1 b2 b3 b4 : Nat) (rest : List Nat)
    (hrx : s.rx = b :: b1 :: b2 :: b3 :: b4 :: rest) (h : needed_data b ≤ s.rx.length) :
    tud_cdc_rx_cb fifo w s =
      flush_end (dispatch fifo w ⟨b, u32 (b1 + 256 * b2 + 65536 * b3 + 16777216 * b4)⟩
        { led_blink w s with rx := rest }) := by
  unfold tud_cdc_rx_cb
  simp only [fifo, led_blink_rx, hrx, List.head?_cons, Option.getD_some]
  rw [hrx] at h
  rw [if_pos h]
  simp [sizeof_cmd, cmd_of_bytes]

theorem opcode_cases (b : Nat) :
    b = 0x00 ∨ b = 0x01 ∨ b = 0x02 ∨ b = 0x03 ∨ b = 0x04 ∨ b = 0xA0 ∨ b = 0xA1 ∨ b = 0xA2 ∨
    b = 0xA3 ∨ b = 0xA4 ∨ b = 0xA5 ∨ b = 0xA6 ∨ b = 0xA7 ∨ b = 0xA8 ∨ b = 0xFE ∨
    (b ≠ 0x00 ∧ b ≠ 0x01 ∧ b ≠ 0x02 ∧ b ≠ 0x03 ∧ b ≠ 0x04 ∧ b ≠ 0xA0 ∧ b ≠ 0xA1 ∧ b ≠ 0xA2 ∧
     b ≠ 0xA3 ∧ b ≠ 0xA4 ∧ b ≠ 0xA5 ∧ b ≠ 0xA6 ∧ b ≠ 0xA7 ∧ b ≠ 0xA8 ∧ b ≠ 0xFE) := by
  omega

theorem dispatch_rx (w : World) (b lba : Nat) (s : State (List Nat)) :
    (flush_end (dispatch fifo w ⟨b, lba⟩ s)).rx =
      if b = WRITE_FLASH then s.rx.drop 0x210
      else if b = ISD1200_WRITE_FLASH then s.rx.drop 16 else s.rx := by
  rcases opcode_cases b with h | h | h | h | h | h | h | h | h | h | h | h | h | h | h | h
  all_goals
    simp [h, dispatch, dispatch_GET_VERSION, dispatch_ISD1200_INIT, dispatch_ISD1200_DEINIT,
      dispatch_ISD1200_ERASE_FLASH, dispatch_ISD1200_RESET, Flow.andThen, flush_end, fifo,
      State.call, GET_VERSION, GET_FLASH_CONFIG, READ_FLASH, WRITE_FLASH, READ_FLASH_STREAM,
      ISD1200_INIT, ISD1200_DEINIT, ISD1200_READ_ID, ISD1200_READ_FLASH, ISD1200_ERASE_FLASH,
      ISD1200_WRITE_FLASH, ISD1200_PLAY_VOICE, ISD1200_EXEC_MACRO, ISD1200_RESET,
      REBOOT_TO_BOOTLOADER]
  all_goals split_ifs <;> rfl

theorem led_blink_session {σ : Type} (w : World) (s : State σ) :
    (led_blink w s).do_stream = s.do_stream ∧ (led_blink w s).stream_offset = s.stream_offset ∧
    (led_blink w s).stream_end = s.stream_end ∧ (led_blink w s).halted = s.halted := by
  unfold led_blink; simp only []; split_ifs <;> simp

theorem le32_length (x : Nat) : (le32 x).length = 4 := rfl

theorem cmd_lba_le32 (a : Nat) (ha : a < 4294967296) :
    u32 (a % 256 + 256 * (a / 256 % 256) + 65536 * (a / 65536 % 256)
      + 16777216 * (a / 16777216 % 256)) = a := by
  unfold u32; omega

/-- Full evaluation of a buffered WRITE_FLASH frame. -/
theorem rx_cb_WRITE_FLASH (w : World) (s : State (List Nat)) (a : Nat) (payload rest : List Nat)
    (ha : a < 4294967296) (hp : payload.length = 0x210)
    (hrx : s.rx = WRITE_FLASH :: le32 a ++ payload ++ rest) :
    tud_cdc_rx_cb fifo w s =
      { led_blink w s with
        rx := rest
        log := s.log ++
          [.xbox_nand_write_block a (payload.take 0x200) (payload.drop 0x200),
           .tud_cdc_write (le32 (u32 (w.xbox_nand_write_block a (payload.take 0x200)
              (payload.drop 0x200)))),
           .tud_cdc_write_flush] } := by
  have hrx2 : s.rx = WRITE_FLASH :: (a % 256) :: (a / 256 % 256) :: (a / 65536 % 256) ::
      (a / 16777216 % 256) :: (payload ++ rest) := by
    rw [hrx]; simp [le32]
  have hlen : needed_data WRITE_FLASH ≤ s.rx.length := by
    rw [hrx2, needed_data_eq]; simp [hp]
  rw [rx_cb_ready w s _ _ _ _ _ _ hrx2 hlen, cmd_lba_le32 a ha]
  simp [dispatch, dispatch_GET_VERSION, dispatch_ISD1200_INIT, dispatch_ISD1200_DEINIT,
      dispatch_ISD1200_ERASE_FLASH, dispatch_ISD1200_RESET, Flow.andThen, flush_end, fifo,
      State.call, GET_VERSION, GET_FLASH_CONFIG, READ_FLASH, WRITE_FLASH, READ_FLASH_STREAM,
      ISD1200_INIT, ISD1200_DEINIT, ISD1200_READ_ID, ISD1200_READ_FLASH, ISD1200_ERASE_FLASH,
      ISD1200_WRITE_FLASH, ISD1200_PLAY_VOICE, ISD1200_EXEC_MACRO, ISD1200_RESET,
      REBOOT_TO_BOOTLOADER, led_blink_log, hp, List.take_append_of_le_length,
      List.drop_append_of_le_length]

/-- Full evaluation of a buffered ISD1200_WRITE_FLASH frame. -/
theorem rx_cb_ISD1200_WRITE_FLASH (w : World) (s : State (List Nat)) (a : Nat)
    (payload rest : List Nat) (ha : a < 4294967296) (hp : payload.length = 16)
    (hrx : s.rx = ISD1200_WRITE_FLASH :: le32 a ++ payload ++ rest) :
    tud_cdc_rx_cb fifo w s =
      { led_blink w s with
        rx := rest
        log := s.log ++
          [.isd1200_flash_write a payload, .tud_cdc_write (le32 0), .tud_cdc_write_flush] } := by
  have hrx2 : s.rx = ISD1200_WRITE_FLASH :: (a % 256) :: (a / 256 % 256) :: (a / 65536 % 256) ::
      (a / 16777216 % 256) :: (payload ++ rest) := by
    rw [hrx]; simp [le32]
  have hlen : needed_data ISD1200_WRITE_FLASH ≤ s.rx.length := by
    rw [hrx2, needed_data_eq]; simp [hp, ISD1200_WRITE_FLASH, WRITE_FLASH]
  rw [rx_cb_ready w s _ _ _ _ _ _ hrx2 hlen, cmd_lba_le32 a ha]
  simp [dispatch, dispatch_GET_VERSION, dispatch_ISD1200_INIT, dispatch_ISD1200_DEINIT,
      dispatch_ISD1200_ERASE_FLASH, dispatch_ISD1200_RESET, Flow.andThen, flush_end, fifo,
      State.call, GET_VERSION, GET_FLASH_CONFIG, READ_FLASH, WRITE_FLASH, READ_FLASH_STREAM,
      ISD1200_INIT, ISD1200_DEINIT, ISD1200_READ_ID, ISD1200_READ_FLASH, ISD1200_ERASE_FLASH,
      ISD1200_WRITE_FLASH, ISD1200_PLAY_VOICE, ISD1200_EXEC_MACRO, ISD1200_RESET,
      REBOOT_TO_BOOTLOADER, led_blink_log, hp, List.take_append_of_le_length,
      List.drop_append_of_le_length]

/-- Full evaluation of a buffered READ_FLASH_STREAM frame. -/
theorem rx_cb_READ_FLASH_STREAM (w : World) (s : State (List Nat)) (M : Nat) (rest : List Nat)
    (hM : M < 4294967296) (hrx : s.rx = READ_FLASH_STREAM :: le32 M ++ rest) :
    tud_cdc_rx_cb fifo w s =
      { led_blink w s with
        rx := rest
        log := s.log ++ [.tud_cdc_write_flush]
        do_stream := true
        stream_offset := 0
        stream_end := M } := by
  have hrx2 : s.rx = READ_FLASH_STREAM :: (M % 256) :: (M / 256 % 256) :: (M / 65536 % 256) ::
      (M / 16777216 % 256) :: rest := by
    rw [hrx]; simp [le32]
  have hlen : needed_data READ_FLASH_STREAM ≤ s.rx.length := by
    rw [hrx2, needed_data_eq]; simp [READ_FLASH_STREAM, ISD1200_WRITE_FLASH, WRITE_FLASH]
  rw [rx_cb_ready w s _ _ _ _ _ _ hrx2 hlen, cmd_lba_le32 M hM]
  simp [dispatch, dispatch_GET_VERSION, dispatch_ISD1200_INIT, dispatch_ISD1200_DEINIT,
      dispatch_ISD1200_ERASE_FLASH, dispatch_ISD1200_RESET, Flow.andThen, flush_end, fifo,
      State.call, GET_VERSION, GET_FLASH_CONFIG, READ_FLASH, WRITE_FLASH, READ_FLASH_STREAM,
      ISD1200_INIT, ISD1200_DEINIT, ISD1200_READ_ID, ISD1200_READ_FLASH, ISD1200_ERASE_FLASH,
      ISD1200_WRITE_FLASH, ISD1200_PLAY_VOICE, ISD1200_EXEC_MACRO, ISD1200_RESET,
      REBOOT_TO_BOOTLOADER, led_blink_log]

/-- A callback invocation on a buffer that is a proper initial part of a frame
whose needed length is the frame's length does nothing but blink. -/
theorem receive_incomplete (t : State (List Nat)) (c : List Nat) (w : World) (op : Nat)
    (body tail : List Nat) (hF : t.rx ++ c ++ tail = op :: body) (htail : tail ≠ [])
    (hneed : needed_data op = (op :: body).length) :
    receive t (c, w) = led_blink w { t with rx := t.rx ++ c } := by
  unfold receive
  apply rx_cb_defer
  have htl : 0 < tail.length := List.length_pos.mpr htail
  have hlen := congrArg List.length hF
  simp only [List.length_append, List.length_cons] at hlen
  cases hxs : t.rx ++ c with
  | nil =>
    simp only [List.length_nil, List.head?_nil, Option.getD_none]
    rw [needed_data_eq]; split_ifs <;> omega
  | cons x xs =>
    rw [hxs] at hF
    simp only [List.cons_append, List.cons.injEq] at hF
    have hl := congrArg List.length hxs
    simp only [List.length_append, List.length_cons] at hl
    simp only [List.head?_cons, Option.getD_some, hF.1, hneed, List.length_cons]
    omega

theorem receive_all_incomplete (op : Nat) (body : List Nat)
    (hneed : needed_data op = (op :: body).length) (ds : List (List Nat × World)) :
    ∀ (t : State (List Nat)) (tail : List Nat),
      t.rx ++ (ds.map Prod.fst).flatten ++ tail = op :: body → tail ≠ [] →
      (receive_all t ds).rx = t.rx ++ (ds.map Prod.fst).flatten ∧
      (receive_all t ds).log = t.log ∧
      (receive_all t ds).do_stream = t.do_stream ∧
      (receive_all t ds).stream_offset = t.stream_offset ∧
      (receive_all t ds).stream_end = t.stream_end ∧
      (receive_all t ds).halted = t.halted := by
  induction ds with
  | nil => intro t tail _ _; simp [receive_all]
  | cons d ds ih =>
    intro t tail hF htail
    obtain ⟨c, w⟩ := d
    simp only [List.map_cons, List.flatten_cons] at hF ⊢
    have hstep : receive t (c, w) = led_blink w { t with rx := t.rx ++ c } :=
      receive_incomplete t c w op body ((ds.map Prod.fst).flatten ++ tail)
        (by simpa [List.append_assoc] using hF) (by simp [htail]) hneed
    have hrx1 : (receive t (c, w)).rx = t.rx ++ c := by rw [hstep, led_blink_rx]
    have h := ih (receive t (c, w)) tail (by rw [hrx1]; simpa [List.append_assoc] using hF) htail
    have hs := led_blink_session w { t with rx := t.rx ++ c }
    have hl := led_blink_log w { t with rx := t.rx ++ c }
    rw [← hstep] at hs hl
    simp only [receive_all, List.foldl_cons] at h ⊢
    obtain ⟨h1, h2, h3, h4, h5, h6⟩ := h
    refine ⟨?_, ?_, ?_, ?_, ?_, ?_⟩
    · rw [h1, hrx1, List.append_assoc]
    · rw [h2, hl]
    · rw [h3, hs.1]
    · rw [h4, hs.2.1]
    · rw [h5, hs.2.2.1]
    · rw [h6, hs.2.2.2]

theorem stream_inactive {σ : Type} (w : World) (s : State σ) (h : s.do_stream = false) :
    stream w s = s := by
  unfold stream; simp [h]

theorem stream_done {σ : Type} (w : World) (s : State σ) (h : s.do_stream = true)
    (hge : s.stream_offset ≥ s.stream_end) :
    stream w s = { s with do_stream := false } := by
  unfold stream; simp [h, hge]

theorem stream_defer {σ : Type} (w : World) (s : State σ) (h : s.do_stream = true)
    (hlt : s.stream_offset < s.stream_end) (hcap : u32 w.tud_cdc_write_available < 532) :
    stream w s = s := by
  unfold stream
  simp only [h, if_true, ge_iff_le]
  rw [if_neg (by omega), if_pos (by omega)]

theorem stream_ok {σ : Type} (w : World) (s : State σ) (h : s.do_stream = true)
    (hlt : s.stream_offset < s.stream_end) (hcap : 532 ≤ u32 w.tud_cdc_write_available)
    (hst : u32 (w.xbox_nand_read_block s.stream_offset).status = 0) :
    stream w s =
      { s with
        log := s.log ++ stream_frame w s.stream_offset
        stream_offset := u32 (s.stream_offset + 1) } := by
  unfold stream
  simp only [h, if_true, ge_iff_le]
  rw [if_neg (by omega), if_neg (by omega)]
  simp [hst, State.call, stream_frame, le32, h]

theorem stream_fail {σ : Type} (w : World) (s : State σ) (h : s.do_stream = true)
    (hlt : s.stream_offset < s.stream_end) (hcap : 532 ≤ u32 w.tud_cdc_write_available)
    (hst : u32 (w.xbox_nand_read_block s.stream_offset).status ≠ 0) :
    stream w s =
      { s with
        log := s.log ++ [.xbox_nand_read_block s.stream_offset,
          .tud_cdc_write (le32 (u32 (w.xbox_nand_read_block s.stream_offset).status))]
        do_stream := false } := by
  unfold stream
  simp only [h, if_true, ge_iff_le]
  rw [if_neg (by omega), if_neg (by omega)]
  simp [hst, State.call]

theorem stream_frames_succ (env : Nat → World) (n : Nat) :
    stream_frames env (n + 1) = stream_frames env n ++ stream_frame (env n) n := by
  simp [stream_frames, List.range_succ]

/-- While every read succeeds and the channel has room, `n` calls send the
first `n` frames. -/
theorem stream_calls_success {σ : Type} (env : Nat → World) (s : State σ) (k : Nat)
    (hact : s.do_stream = true) (hoff : s.stream_offset = 0) (hk : k ≤ s.stream_end)
    (hend : s.stream_end < 4294967296)
    (hok : ∀ i, i < k → u32 ((env i).xbox_nand_read_block i).status = 0)
    (hcap : ∀ i, i < k → 532 ≤ u32 (env i).tud_cdc_write_available) :
    ∀ n, n ≤ k → stream_calls env n s =
      { s with log := s.log ++ stream_frames env n, stream_offset := n } := by
  intro n
  induction n with
  | zero =>
    intro _
    cases s
    simp_all [stream_calls, stream_frames]
  | succ n ih =>
    intro hn
    have hprev := ih (by omega)
    simp only [stream_calls]
    rw [hprev, stream_ok (env n)
      ({ s with log := s.log ++ stream_frames env n, stream_offset := n } : State σ) hact
      (show n < s.stream_end by omega) (hcap n (by omega)) (hok n (by omega))]
    have hw : u32 (n + 1) = n + 1 := by unfold u32; omega
    simp [stream_frames_succ, hw]

/-- Once the session is inactive, further calls change nothing. -/
theorem stream_calls_inactive {σ : Type} (env : Nat → World) (s : State σ) (n : Nat)
    (h : (stream_calls env n s).do_stream = false) :
    ∀ m, stream_calls env (n + m) s = stream_calls env n s := by
  intro m
  induction m with
  | zero => rfl
  | succ m ih =>
    rw [← Nat.add_assoc]
    simp only [stream_calls]
    rw [ih, stream_inactive _ _ h]

theorem stream_frames_eq (env : Nat → World) (n : Nat) :
    stream_frames env n = (List.range n).flatMap (fun i =>
      [Call.xbox_nand_read_block i,
       Call.tud_cdc_write ([0, 0, 0, 0] ++ ((env i).xbox_nand_read_block i).data ++
         ((env i).xbox_nand_read_block i).spare)]) := rfl

theorem stream_calls_all_ok {σ : Type} (env : Nat → World) (s : State σ)
    (hact : s.do_stream = true) (hoff : s.stream_offset = 0)
    (hend : s.stream_end < 4294967296)
    (hok : ∀ i, i < s.stream_end → u32 ((env i).xbox_nand_read_block i).status = 0)
    (hcap : ∀ i, i < s.stream_end → 532 ≤ u32 (env i).tud_cdc_write_available) (n : Nat) :
    stream_calls env n s =
      { s with
        log := s.log ++ stream_frames env (min n s.stream_end)
        stream_offset := min n s.stream_end
        do_stream := decide (n ≤ s.stream_end) } := by
  have hsucc := stream_calls_success env s s.stream_end hact hoff (Nat.le_refl _) hend hok hcap
  by_cases hn : n ≤ s.stream_end
  · rw [hsucc n hn, Nat.min_eq_left hn]
    simp [hn, hact]
  · have hN1 : stream_calls env (s.stream_end + 1) s =
        { s with
          log := s.log ++ stream_frames env s.stream_end
          stream_offset := s.stream_end
          do_stream := false } := by
      simp only [stream_calls]
      rw [hsucc _ (Nat.le_refl _), stream_done (env s.stream_end)
        ({ s with log := s.log ++ stream_frames env s.stream_end,
                  stream_offset := s.stream_end } : State σ) hact (Nat.le_refl _)]
    obtain ⟨m, rfl⟩ : ∃ m, n = s.stream_end + 1 + m := ⟨n - (s.stream_end + 1), by omega⟩
    rw [stream_calls_inactive env s _ (by rw [hN1]) m, hN1,
      Nat.min_eq_right (by omega)]
    simp [hn]

theorem stream_calls_fail_at {σ : Type} (env : Nat → World) (s : State σ) (k r : Nat)
    (hact : s.do_stream = true) (hoff : s.stream_offset = 0) (hk : k < s.stream_end)
    (hend : s.stream_end < 4294967296)
    (hok : ∀ i, i < k → u32 ((env i).xbox_nand_read_block i).status = 0)
    (hfail : ((env k).xbox_nand_read_block k).status = r) (hr : u32 r ≠ 0)
    (hcap : ∀ i, i ≤ k → 532 ≤ u32 (env i).tud_cdc_write_available) (n : Nat) :
    stream_calls env n s =
      { s with
        log := s.log ++ stream_frames env (min n k) ++
          (if k < n then [.xbox_nand_read_block k, .tud_cdc_write (le32 (u32 r))] else [])
        stream_offset := min n k
        do_stream := decide (n ≤ k) } := by
  have hsucc := stream_calls_success env s k hact hoff (Nat.le_of_lt hk) hend hok
    (fun i hi => hcap i (Nat.le_of_lt hi))
  by_cases hn : n ≤ k
  · rw [hsucc n hn, Nat.min_eq_left hn, if_neg (by omega)]
    simp [hn, hact]
  · have hk1 : stream_calls env (k + 1) s =
        { s with
          log := s.log ++ stream_frames env k ++
            [.xbox_nand_read_block k, .tud_cdc_write (le32 (u32 r))]
          stream_offset := k
          do_stream := false } := by
      simp only [stream_calls]
      rw [hsucc _ (Nat.le_refl _), stream_fail (env k)
        ({ s with log := s.log ++ stream_frames env k, stream_offset := k } : State σ) hact hk
        (hcap k (Nat.le_refl _)) (by simp only [hfail]; exact hr)]
      simp [hfail]
    obtain ⟨m, rfl⟩ : ∃ m, n = k + 1 + m := ⟨n - (k + 1), by omega⟩
    rw [stream_calls_inactive env s _ (by rw [hk1]) m, hk1, Nat.min_eq_right (by omega),
      if_pos (by omega)]
    simp [hn]

theorem u32_of_lt (x : Nat) (h : x < 4294967296) : u32 x = x := by
  unfold u32; omega

/-- One call of `stream()` on two states with the same session makes the same
calls and leaves the same session; it reads only below `stream_end`. -/
theorem stream_same_session {σ τ : Type} (w : World) (s : State σ) (t : State τ)
    (h1 : s.do_stream = t.do_stream) (h2 : s.stream_offset = t.stream_offset)
    (h3 : s.stream_end = t.stream_end) :
    ∃ L, (stream w s).log = s.log ++ L ∧ (stream w t).log = t.log ++ L ∧
      (∀ a, Call.xbox_nand_read_block a ∈ L → a < s.stream_end) ∧
      (stream w s).do_stream = (stream w t).do_stream ∧
      (stream w s).stream_offset = (stream w t).stream_offset ∧
      (stream w s).stream_end = (stream w t).stream_end ∧
      (stream w s).stream_end = s.stream_end := by
  unfold stream
  by_cases hact : s.do_stream = true
  · by_cases hge : s.stream_offset ≥ s.stream_end
    · exact ⟨[], by simp [hact, hge, ← h1, ← h2, ← h3]⟩
    · by_cases hcap : u32 w.tud_cdc_write_available < 4 + 0x210
      · exact ⟨[], by simp [hact, hge, hcap, ← h1, ← h2, ← h3]⟩
      · by_cases hst : u32 (w.xbox_nand_read_block s.stream_offset).status = 0
        · refine ⟨stream_frame w s.stream_offset, ?_⟩
          simp [hact, hge, hcap, hst, State.call, stream_frame, le32, ← h1, ← h2, ← h3]
          omega
        · refine ⟨[.xbox_nand_read_block s.stream_offset,
            .tud_cdc_write (le32 (u32 (w.xbox_nand_read_block s.stream_offset).status))], ?_⟩
          simp [hact, hge, hcap, hst, State.call, ← h1, ← h2, ← h3]
          omega
  · exact ⟨[], by simp [hact, ← h1, ← h2, ← h3]⟩

theorem stream_calls_same_session {σ τ : Type} (env : Nat → World) (s : State σ) (t : State τ)
    (h1 : s.do_stream = t.do_stream) (h2 : s.stream_offset = t.stream_offset)
    (h3 : s.stream_end = t.stream_end) (n : Nat) :
    ∃ L, (stream_calls env n s).log = s.log ++ L ∧ (stream_calls env n t).log = t.log ++ L ∧
      (∀ a, Call.xbox_nand_read_block a ∈ L → a < s.stream_end) ∧
      (stream_calls env n s).do_stream = (stream_calls env n t).do_stream ∧
      (stream_calls env n s).stream_offset = (stream_calls env n t).stream_offset ∧
      (stream_calls env n s).stream_end = (stream_calls env n t).stream_end ∧
      (stream_calls env n s).stream_end = s.stream_end := by
  induction n with
  | zero => exact ⟨[], by simp [stream_calls, h1, h2, h3]⟩
  | succ n ih =>
    obtain ⟨L, hs, ht, hL, e1, e2, e3, e4⟩ := ih
    obtain ⟨L2, hs2, ht2, hL2, f1, f2, f3, f4⟩ :=
      stream_same_session (env n) (stream_calls env n s) (stream_calls env n t) e1 e2 e3
    refine ⟨L ++ L2, ?_, ?_, ?_, f1, f2, f3, ?_⟩
    · simp only [stream_calls]; rw [hs2, hs, List.append_assoc]
    · simp only [stream_calls]; rw [ht2, ht, List.append_assoc]
    · intro a ha
      rcases List.mem_append.mp ha with ha | ha
      · exact hL a ha
      · rw [← e4]; exact hL2 a ha
    · simp only [stream_calls]; rw [f4, e4]

/-- With room for a frame, `stream()` does not depend on how much room there is. -/
theorem stream_ample_eq {σ : Type} (w : World) (c : Nat) (s : State σ)
    (hc : 532 ≤ u32 c) :
    stream { w with tud_cdc_write_available := c } s =
      stream { w with tud_cdc_write_available := 532 } s := by
  unfold stream
  have h1 : ¬ u32 c < 4 + 0x210 := by omega
  have h2 : ¬ u32 532 < 4 + 0x210 := by unfold u32; omega
  simp only [h1, h2, if_false]

theorem stream_log_grows {σ : Type} (w : World) (s : State σ) :
    s.log <+: (stream w s).log := by
  unfold stream
  simp only [State.call]
  split_ifs <;> simp

/-- The relation between a capacity-constrained run and the unconstrained run
after as many calls as the constrained one had with room: the same state, or
the constrained run has already noticed the end of the stream. -/
theorem stream_low_step {σ : Type} (w : World) (c : Nat) (a u : State σ) (hc : u32 c < 532)
    (h : a = u ∨ (u.do_stream = true ∧ u.stream_end ≤ u.stream_offset ∧
      a = { u with do_stream := false })) :
    stream { w with tud_cdc_write_available := c } a = u ∨
      (u.do_stream = true ∧ u.stream_end ≤ u.stream_offset ∧
        stream { w with tud_cdc_write_available := c } a = { u with do_stream := false }) := by
  rcases h with rfl | ⟨h1, h2, rfl⟩
  · by_cases hact : a.do_stream = true
    · by_cases hge : a.stream_end ≤ a.stream_offset
      · exact Or.inr ⟨hact, hge, stream_done _ _ hact hge⟩
      · exact Or.inl (stream_defer _ _ hact (by omega) hc)
    · exact Or.inl (stream_inactive _ _ (by simpa using hact))
  · exact Or.inr ⟨h1, h2, stream_inactive _ _ rfl⟩

theorem stream_ample_step {σ : Type} (w : World) (c : Nat) (a u : State σ) (hc : 532 ≤ u32 c)
    (h : a = u ∨ (u.do_stream = true ∧ u.stream_end ≤ u.stream_offset ∧
      a = { u with do_stream := false })) :
    stream { w with tud_cdc_write_available := c } a =
      stream { w with tud_cdc_write_available := 532 } u := by
  rw [stream_ample_eq w c a hc]
  rcases h with rfl | ⟨h1, h2, rfl⟩
  · rfl
  · rw [stream_inactive _ _ rfl, stream_done _ u h1 h2]

theorem stream_sched_vs_iterate {σ : Type} (w : World) (caps : List Nat) :
    ∀ (a u : State σ),
      (a = u ∨ (u.do_stream = true ∧ u.stream_end ≤ u.stream_offset ∧
        a = { u with do_stream := false })) →
      (stream_sched w caps a).log =
        ((stream { w with tud_cdc_write_available := 532 })^[
          (caps.filter (fun c => decide (532 ≤ u32 c))).length] u).log := by
  induction caps with
  | nil =>
    intro a u h
    rcases h with rfl | ⟨_, _, rfl⟩ <;> simp [stream_sched]
  | cons c caps ih =>
    intro a u h
    by_cases hc : 532 ≤ u32 c
    · have hstep := stream_ample_step w c a u hc h
      have := ih (stream { w with tud_cdc_write_available := c } a)
        (stream { w with tud_cdc_write_available := 532 } u) (Or.inl hstep)
      simp only [stream_sched, List.foldl_cons] at this ⊢
      rw [this]
      simp [List.filter_cons, hc]
    · have hstep := stream_low_step w c a u (by omega) h
      have := ih (stream { w with tud_cdc_write_available := c } a) u hstep
      simp only [stream_sched, List.foldl_cons] at this ⊢
      rw [this]
      simp [List.filter_cons, hc]

theorem stream_sched_ample {σ : Type} (w : World) (full : List Nat) :
    ∀ (s : State σ), (∀ c ∈ full, 532 ≤ u32 c) →
      stream_sched w full s =
        (stream { w with tud_cdc_write_available := 532 })^[full.length] s := by
  induction full with
  | nil => intro s _; rfl
  | cons c full ih =>
    intro s h
    simp only [stream_sched, List.foldl_cons, List.length_cons, Function.iterate_succ_apply]
    rw [stream_ample_eq w c s (h c (List.mem_cons_self _ _))]
    exact ih _ (fun c hc => h c (List.mem_cons_of_mem _ hc))

theorem iterate_stream_log_grows {σ : Type} (w : World) (j : Nat) (s : State σ) :
    s.log <+: ((stream w)^[j] s).log := by
  induction j with
  | zero => exact List.prefix_refl _
  | succ j ih =>
    rw [Function.iterate_succ_apply']
    exact ih.trans (stream_log_grows w _)

theorem iterate_stream_inactive {σ : Type} (w : World) (j : Nat) (s : State σ)
    (h : s.do_stream = false) : (stream w)^[j] s = s := by
  induction j with
  | zero => rfl
  | succ j ih => rw [Function.iterate_succ_apply', ih, stream_inactive w s h]

theorem iterate_stream_mono {σ : Type} (w : World) (m n : Nat) (s : State σ)
    (h : m ≤ n ∨ ((stream w)^[n] s).do_stream = false) :
    ((stream w)^[m] s).log <+: ((stream w)^[n] s).log := by
  rcases Nat.le_total m n with hmn | hnm
  · obtain ⟨j, rfl⟩ : ∃ j, n = j + m := ⟨n - m, by omega⟩
    rw [Function.iterate_add_apply]
    exact iterate_stream_log_grows w j _
  · rcases h with h | h
    · have : m = n := Nat.le_antisymm h hnm
      rw [this]
    · obtain ⟨j, rfl⟩ : ∃ j, m = j + n := ⟨m - n, by omega⟩
      rw [Function.iterate_add_apply, iterate_stream_inactive w j _ h]

/-- An unconstrained stream ends within `stream_end - stream_offset + 1` calls. -/
theorem iterate_stream_finishes {σ : Type} (w : World) (hw : 532 ≤ u32 w.tud_cdc_write_available)
    (d : Nat) :
    ∀ (s : State σ), s.stream_end < 4294967296 → s.stream_end - s.stream_offset ≤ d →
      ((stream w)^[d + 1] s).do_stream = false := by
  induction d with
  | zero =>
    intro s _ hd
    rw [Function.iterate_one]
    by_cases hact : s.do_stream = true
    · rw [stream_done w s hact (by omega)]
    · rw [stream_inactive w s (by simpa using hact)]; simpa using hact
  | succ d ih =>
    intro s hend hd
    rw [Function.iterate_succ_apply]
    by_cases hact : s.do_stream = true
    · by_cases hge : s.stream_end ≤ s.stream_offset
      · rw [stream_done w s hact hge, iterate_stream_inactive w _ _ rfl]
      · by_cases hst : u32 (w.xbox_nand_read_block s.stream_offset).status = 0
        · rw [stream_ok w s hact (by omega) hw hst]
          apply ih
          · exact hend
          · have : u32 (s.stream_offset + 1) = s.stream_offset + 1 := by unfold u32; omega
            simp only [this]; omega
        · rw [stream_fail w s hact (by omega) hw hst, iterate_stream_inactive w _ _ rfl]
    · have hina : s.do_stream = false := by simpa using hact
      rw [stream_inactive w s hina, iterate_stream_inactive w _ _ hina]; exact hina

/-! ## Lemmas on the handlers and the main loop -/

/-- The chains of the source and the single match of the spec agree on every
opcode byte, parameter, channel, world and state. -/
theorem dispatch_eq_spec_dispatch {σ : Type} (c : Cdc σ) (w : World) (k : cmd) (s : State σ) :
    dispatch c w k s = spec_dispatch c w k s := by
  obtain ⟨b, lba⟩ := k
  rcases opcode_cases b with h | h | h | h | h | h | h | h | h | h | h | h | h | h | h | h
  all_goals
    simp [h, dispatch, dispatch_GET_VERSION, dispatch_ISD1200_INIT, dispatch_ISD1200_DEINIT,
      dispatch_ISD1200_ERASE_FLASH, dispatch_ISD1200_RESET, Flow.andThen,
      spec_dispatch, decode_opcode, handler,
      State.call, GET_VERSION, GET_FLASH_CONFIG, READ_FLASH, WRITE_FLASH, READ_FLASH_STREAM,
      ISD1200_INIT, ISD1200_DEINIT, ISD1200_READ_ID, ISD1200_READ_FLASH, ISD1200_ERASE_FLASH,
      ISD1200_WRITE_FLASH, ISD1200_PLAY_VOICE, ISD1200_EXEC_MACRO, ISD1200_RESET,
      REBOOT_TO_BOOTLOADER]
  all_goals split_ifs <;> rfl

/-- A buffered header on the byte queue: the callback is the handler of its
opcode, then the flush. -/
theorem rx_cb_header (w : World) (s : State (List Nat)) (b b1 b2 b3 b4 : Nat) (rest : List Nat)
    (hrx : s.rx = b :: b1 :: b2 :: b3 :: b4 :: rest) (h : needed_data b ≤ s.rx.length) :
    tud_cdc_rx_cb fifo w s =
      flush_end (spec_dispatch fifo w ⟨b, u32 (b1 + 256 * b2 + 65536 * b3 + 16777216 * b4)⟩
        { led_blink w s with rx := rest }) := by
  rw [rx_cb_ready w s b b1 b2 b3 b4 rest hrx h, dispatch_eq_spec_dispatch]

/-- The same for a header whose parameter is the 32-bit value `a`. -/
theorem rx_cb_frame (w : World) (s : State (List Nat)) (b a : Nat) (rest : List Nat)
    (ha : a < 4294967296) (hrx : s.rx = b :: le32 a ++ rest) (h : needed_data b ≤ s.rx.length) :
    tud_cdc_rx_cb fifo w s =
      flush_end (spec_dispatch fifo w ⟨b, a⟩ { led_blink w s with rx := rest }) := by
  have hrx2 : s.rx = b :: (a % 256) :: (a / 256 % 256) :: (a / 65536 % 256) ::
      (a / 16777216 % 256) :: rest := by
    rw [hrx]; simp [le32]
  rw [rx_cb_header w s _ _ _ _ _ _ hrx2 h, cmd_lba_le32 a ha]

theorem needed_data_plain (b : Nat) (h3 : b ≠ WRITE_FLASH) (hA5 : b ≠ ISD1200_WRITE_FLASH) :
    needed_data b = 5 := by
  rw [needed_data_eq, if_neg h3, if_neg hA5]

theorem main_run_halted (s : State (List Nat)) (h : s.halted = true) (ts : List Tick) :
    main_run s ts = s := by
  induction ts with
  | nil => rfl
  | cons t ts ih =>
    have hstep : main_step s t = s := by
      cases t <;> simp [main_step, h]
    simp only [main_run, List.foldl_cons, hstep]
    exact ih

/-- On the byte queue a handler whose payload is buffered runs to its end,
unless it is the reset. -/
theorem spec_dispatch_reaches_flush (w : World) (b lba : Nat) (t : State (List Nat))
    (hboot : b ≠ REBOOT_TO_BOOTLOADER) (h3 : b = WRITE_FLASH → 528 ≤ t.rx.length)
    (hA5 : b = ISD1200_WRITE_FLASH → 16 ≤ t.rx.length) :
    ∃ t', spec_dispatch fifo w ⟨b, lba⟩ t = Flow.next t' := by
  rcases opcode_cases b with h | h | h | h | h | h | h | h | h | h | h | h | h | h | h | h
  case inr.inr.inr.inl =>
    have hlen : ¬ t.rx.length < 528 := Nat.not_lt.mpr (h3 (by rw [h]; rfl))
    exact ⟨_, by simp [h, spec_dispatch, decode_opcode, handler, fifo, hlen]; rfl⟩
  case inr.inr.inr.inr.inr.inr.inr.inr.inr.inr.inl =>
    have hlen : ¬ t.rx.length < 16 := Nat.not_lt.mpr (hA5 (by rw [h]; rfl))
    exact ⟨_, by simp [h, spec_dispatch, decode_opcode, handler, fifo, hlen]; rfl⟩
  case inr.inr.inl =>
    by_cases hst : u32 (w.xbox_nand_read_block lba).status = 0
    · exact ⟨_, by simp [h, spec_dispatch, decode_opcode, handler, hst]; rfl⟩
    · exact ⟨_, by simp [h, spec_dispatch, decode_opcode, handler, hst]; rfl⟩
  case inr.inr.inr.inr.inr.inr.inr.inr.inr.inr.inr.inr.inr.inr.inr =>
    have hdec : decode_opcode b = none := by
      unfold decode_opcode
      split <;> simp_all
    exact ⟨t, by simp [spec_dispatch, hdec]⟩
  case inr.inr.inr.inr.inr.inr.inr.inr.inr.inr.inr.inr.inr.inr.inl =>
    exact absurd h hboot
  all_goals exact ⟨_, by simp [h, spec_dispatch, decode_opcode, handler]; rfl⟩

theorem fifo_header_of_ready (w : World) (s : State (List Nat))
    (h : needed_data (s.rx.head?.getD w.stack_cmd) ≤ s.rx.length) :
    ∃ b b1 b2 b3 b4 tl, s.rx = b :: b1 :: b2 :: b3 :: b4 :: tl := by
  have h5 : 5 ≤ s.rx.length := by
    rw [needed_data_eq] at h; split_ifs at h <;> omega
  match hs : s.rx, h5 with
  | b :: b1 :: b2 :: b3 :: b4 :: tl, _ => exact ⟨b, b1, b2, b3, b4, tl, rfl⟩

/-- A handler leaves the session alone or starts it at block 0 with the
frame's parameter as limit. -/
theorem spec_dispatch_session {σ : Type} (c : Cdc σ) (w : World) (k : cmd) (t : State σ) :
    ((flush_end (spec_dispatch c w k t)).stream_offset = t.stream_offset ∧
      (flush_end (spec_dispatch c w k t)).stream_end = t.stream_end) ∨
    ((flush_end (spec_dispatch c w k t)).stream_offset = 0 ∧
      (flush_end (spec_dispatch c w k t)).stream_end = k.lba) := by
  unfold spec_dispatch
  cases hdec : decode_opcode k.cmd with
  | none => left; simp [flush_end, State.call]
  | some op =>
    cases op
    case read_flash_stream => right; simp [handler, flush_end, State.call]
    all_goals
      left
      simp only [handler, State.call]
      first
      | (split_ifs <;> simp [flush_end, State.call])
      | simp [flush_end, State.call]

theorem rx_cb_session (w : World) (s : State (List Nat)) :
    ((tud_cdc_rx_cb fifo w s).stream_offset = s.stream_offset ∧
      (tud_cdc_rx_cb fifo w s).stream_end = s.stream_end) ∨
    ((tud_cdc_rx_cb fifo w s).stream_offset = 0 ∧
      (tud_cdc_rx_cb fifo w s).stream_end < 4294967296) := by
  have hs := led_blink_session w s
  by_cases h : needed_data (s.rx.head?.getD w.stack_cmd) ≤ s.rx.length
  · obtain ⟨b, b1, b2, b3, b4, tl, hrx⟩ := fifo_header_of_ready w s h
    have hb : needed_data b ≤ s.rx.length := by
      rw [hrx] at h ⊢; simpa using h
    rw [rx_cb_header w s b b1 b2 b3 b4 tl hrx hb]
    rcases spec_dispatch_session fifo w
      ⟨b, u32 (b1 + 256 * b2 + 65536 * b3 + 16777216 * b4)⟩
      { led_blink w s with rx := tl } with ⟨h1, h2⟩ | ⟨h1, h2⟩
    · left; exact ⟨by rw [h1]; exact hs.2.1, by rw [h2]; exact hs.2.2.1⟩
    · right
      refine ⟨h1, ?_⟩
      rw [h2]
      exact Nat.mod_lt _ (by decide)
  · rw [rx_cb_defer w s (by omega)]
    left; exact ⟨hs.2.1, hs.2.2.1⟩

theorem stream_keeps_bound {σ : Type} (w : World) (s : State σ)
    (h : s.stream_offset ≤ s.stream_end) (hend : s.stream_end < 4294967296) :
    (stream w s).stream_offset ≤ (stream w s).stream_end ∧
    (stream w s).stream_end < 4294967296 ∧
    ((stream w s).stream_offset = s.stream_offset ∨
      (stream w s).stream_offset = s.stream_offset + 1) := by
  unfold stream
  simp only [State.call, u32]
  split_ifs <;> simp <;> omega

theorem main_run_bound (ts : List Tick) :
    ∀ s : State (List Nat), s.stream_offset ≤ s.stream_end → s.stream_end < 4294967296 →
      (main_run s ts).stream_offset ≤ (main_run s ts).stream_end ∧
      (main_run s ts).stream_end < 4294967296 := by
  induction ts with
  | nil => intro s h1 h2; exact ⟨h1, h2⟩
  | cons t ts ih =>
    intro s h1 h2
    simp only [main_run, List.foldl_cons]
    apply ih
    · cases t with
      | rx bytes w =>
        simp only [main_step]
        split_ifs
        · exact h1
        · rcases rx_cb_session w { s with rx := s.rx ++ bytes } with ⟨e1, e2⟩ | ⟨e1, e2⟩
          · simp only [receive]; rw [e1, e2]; exact h1
          · simp only [receive]; rw [e1]; exact Nat.zero_le _
      | stream w =>
        simp only [main_step]
        split_ifs
        · exact h1
        · exact (stream_keeps_bound w s h1 h2).1
    · cases t with
      | rx bytes w =>
        simp only [main_step]
        split_ifs
        · exact h2
        · rcases rx_cb_session w { s with rx := s.rx ++ bytes } with ⟨e1, e2⟩ | ⟨e1, e2⟩
          · simp only [receive]; rw [e2]; exact h2
          · simp only [receive]; exact e2
      | stream w =>
        simp only [main_step]
        split_ifs
        · exact h2
        · exact (stream_keeps_bound w s h1 h2).2.1

theorem sample_payload_length : sample_payload.length = 528 := List.length_replicate _ _

/-! ## The claims -/

/-- C1: if the inbound queue holds fewer bytes than the length needed for its
first byte (5, or 533 for WRITE_FLASH, or 21 for ISD1200_WRITE_FLASH), or holds
exactly `sizeof(struct cmd) - 1 = 4` bytes whatever the first one is, then one
invocation of `tud_cdc_rx_cb` consumes no inbound byte, makes no call on the
outbound channel, the flash, the voice chip or the reset, and leaves
`do_stream`, `stream_offset` and `stream_end` as they were.  With an empty queue
the byte looked at is the uninitialised local that the peek leaves untouched. -/
theorem rx_cb_incomplete_frame_no_effect (w : World) (s : State (List Nat))
    (h : s.rx.length < needed_data (s.rx.head?.getD w.stack_cmd) ∨ s.rx.length = sizeof_cmd - 1) :
    (tud_cdc_rx_cb fifo w s).rx = s.rx ∧
    (tud_cdc_rx_cb fifo w s).log = s.log ∧
    (tud_cdc_rx_cb fifo w s).do_stream = s.do_stream ∧
    (tud_cdc_rx_cb fifo w s).stream_offset = s.stream_offset ∧
    (tud_cdc_rx_cb fifo w s).stream_end = s.stream_end ∧
    (tud_cdc_rx_cb fifo w s).halted = s.halted := by
  have hlt : s.rx.length < needed_data (s.rx.head?.getD w.stack_cmd) := by
    rcases h with h | h
    · exact h
    · rw [needed_data_eq, h]; simp only [sizeof_cmd]; split_ifs <;> omega
  rw [rx_cb_defer w s hlt]
  exact ⟨led_blink_rx w s, led_blink_log w s, led_blink_session w s⟩

theorem rx_cb_incomplete_frame_no_effect_witness :
    ((power_on [WRITE_FLASH, 0x10, 0, 0, 0, 0xFF, 0xFF]).rx.length <
        needed_data ((power_on [WRITE_FLASH, 0x10, 0, 0, 0, 0xFF, 0xFF]).rx.head?.getD
          sample_world.stack_cmd) ∨
      (power_on [WRITE_FLASH, 0x10, 0, 0, 0, 0xFF, 0xFF]).rx.length = sizeof_cmd - 1) ∧
    (tud_cdc_rx_cb fifo sample_world (power_on [WRITE_FLASH, 0x10, 0, 0, 0, 0xFF, 0xFF])).rx =
      [WRITE_FLASH, 0x10, 0, 0, 0, 0xFF, 0xFF] ∧
    (tud_cdc_rx_cb fifo sample_world (power_on [WRITE_FLASH, 0x10, 0, 0, 0, 0xFF, 0xFF])).log =
      [] :=
  ⟨by decide,
   (rx_cb_incomplete_frame_no_effect sample_world
      (power_on [WRITE_FLASH, 0x10, 0, 0, 0, 0xFF, 0xFF]) (by decide)).1,
   (rx_cb_incomplete_frame_no_effect sample_world
      (power_on [WRITE_FLASH, 0x10, 0, 0, 0, 0xFF, 0xFF]) (by decide)).2.1⟩

/-- C2: for every value `b` of the first buffered byte the length the
dispatcher requires is `5 + 528 = 533` when `b` is WRITE_FLASH, `5 + 16 = 21`
when `b` is ISD1200_WRITE_FLASH, and `5 = sizeof(struct cmd)` (one opcode byte
and four parameter bytes) otherwise; the two additions are never both applied,
so the length is never `5 + 528 + 16`. -/
theorem needed_data_by_opcode (b : Nat) :
    needed_data b =
      (if b = WRITE_FLASH then 5 + 528 else if b = ISD1200_WRITE_FLASH then 5 + 16 else 5) ∧
    sizeof_cmd = 1 + 4 ∧ needed_data b ≠ 5 + 528 + 16 := by
  refine ⟨?_, rfl, ?_⟩
  · rw [needed_data_eq]
  · rw [needed_data_eq]; split_ifs <;> omega

/-- C3: if the inbound queue starts with the byte `b` and holds at least the
length needed for `b` (533 for WRITE_FLASH, 21 for ISD1200_WRITE_FLASH, 5 for
every other byte), one invocation of `tud_cdc_rx_cb` leaves in the queue exactly
the bytes after the first 533, 21 or 5, in their order: the frame is removed and
nothing behind it is consumed or cut.  A queue of exactly 5 bytes is emptied
when `b` carries no payload. -/
theorem rx_cb_consumes_exactly_one_frame (w : World) (s : State (List Nat)) (b : Nat)
    (rest : List Nat) (hrx : s.rx = b :: rest)
    (h : (if b = WRITE_FLASH then 533 else if b = ISD1200_WRITE_FLASH then 21 else 5)
          ≤ s.rx.length) :
    (tud_cdc_rx_cb fifo w s).rx =
      s.rx.drop (if b = WRITE_FLASH then 533 else if b = ISD1200_WRITE_FLASH then 21 else 5) := by
  rw [← needed_data_eq] at h ⊢
  have h5 : 5 ≤ s.rx.length := by
    rw [needed_data_eq] at h; split_ifs at h <;> omega
  obtain ⟨b1, b2, b3, b4, tl, htl⟩ : ∃ b1 b2 b3 b4 tl, rest = b1 :: b2 :: b3 :: b4 :: tl := by
    rw [hrx] at h5
    match rest, h5 with
    | b1 :: b2 :: b3 :: b4 :: tl, _ => exact ⟨b1, b2, b3, b4, tl, rfl⟩
  subst htl
  rw [rx_cb_ready w s b b1 b2 b3 b4 tl hrx h, dispatch_rx, hrx, needed_data_eq]
  split_ifs <;> simp

theorem rx_cb_consumes_exactly_one_frame_witness :
    (power_on [GET_VERSION, 0, 0, 0, 0, READ_FLASH, 7, 0, 0, 0]).rx =
      GET_VERSION :: [0, 0, 0, 0, READ_FLASH, 7, 0, 0, 0] ∧
    (if GET_VERSION = WRITE_FLASH then 533
      else if GET_VERSION = ISD1200_WRITE_FLASH then 21 else 5) ≤
      (power_on [GET_VERSION, 0, 0, 0, 0, READ_FLASH, 7, 0, 0, 0]).rx.length ∧
    (tud_cdc_rx_cb fifo sample_world
        (power_on [GET_VERSION, 0, 0, 0, 0, READ_FLASH, 7, 0, 0, 0])).rx =
      (power_on [GET_VERSION, 0, 0, 0, 0, READ_FLASH, 7, 0, 0, 0]).rx.drop
        (if GET_VERSION = WRITE_FLASH then 533
          else if GET_VERSION = ISD1200_WRITE_FLASH then 21 else 5) :=
  ⟨rfl, by decide,
   rx_cb_consumes_exactly_one_frame sample_world
     (power_on [GET_VERSION, 0, 0, 0, 0, READ_FLASH, 7, 0, 0, 0]) GET_VERSION
     [0, 0, 0, 0, READ_FLASH, 7, 0, 0, 0] rfl (by decide)⟩

/-- C4: a WRITE_FLASH frame (opcode, the four little-endian bytes of the
address `a`, 528 payload bytes) or an ISD1200_WRITE_FLASH frame (16 payload
bytes) arrives on an empty inbound queue cut into the chunks `ds` followed by a
last non-empty chunk, with one invocation of `tud_cdc_rx_cb` after each chunk.
After every one of the earlier invocations the record of calls is unchanged.
The invocation after the last chunk makes exactly these calls: for WRITE_FLASH
`xbox_nand_write_block` once, with `a`, the first 512 payload bytes as data
and the last 16 as spare, then one write of the four little-endian bytes of the
status it returned, then the flush; for ISD1200_WRITE_FLASH
`isd1200_flash_write` once with `a` and the 16 payload bytes, then one write of
the four bytes of the status word 0, then the flush.  The queue is empty
afterwards.  (The earlier chunks may even be empty.) -/
theorem write_frame_dispatched_once_when_complete (s : State (List Nat)) (op a : Nat)
    (payload : List Nat) (ds : List (List Nat × World)) (chunk : List Nat) (w : World)
    (hs : s.rx = []) (ha : a < 4294967296)
    (hop : (op = WRITE_FLASH ∧ payload.length = 528) ∨
           (op = ISD1200_WRITE_FLASH ∧ payload.length = 16))
    (hcut : (ds.map Prod.fst).flatten ++ chunk = op :: le32 a ++ payload)
    (hchunk : chunk ≠ []) :
    (∀ n, (receive_all s (ds.take n)).log = s.log) ∧
    (receive (receive_all s ds) (chunk, w)).log = s.log ++
      (if op = WRITE_FLASH then
        [.xbox_nand_write_block a (payload.take 512) (payload.drop 512),
         .tud_cdc_write (le32 (u32 (w.xbox_nand_write_block a (payload.take 512)
            (payload.drop 512)))),
         .tud_cdc_write_flush]
       else
        [.isd1200_flash_write a payload, .tud_cdc_write (le32 0), .tud_cdc_write_flush]) ∧
    (receive (receive_all s ds) (chunk, w)).rx = [] := by
  have hneed : needed_data op = (op :: (le32 a ++ payload)).length := by
    rw [needed_data_eq]
    rcases hop with ⟨h, hp⟩ | ⟨h, hp⟩ <;>
      simp [h, hp, le32_length, WRITE_FLASH, ISD1200_WRITE_FLASH]
  have hcut2 : s.rx ++ (ds.map Prod.fst).flatten ++ chunk = op :: (le32 a ++ payload) := by
    rw [hs]; simpa using hcut
  have hpre := receive_all_incomplete op (le32 a ++ payload) hneed
  refine ⟨fun n => ?_, ?_⟩
  · refine (hpre (ds.take n) s (((ds.drop n).map Prod.fst).flatten ++ chunk) ?_ ?_).2.1
    · rw [← hcut2, List.append_assoc, List.append_assoc, ← List.append_assoc _ _ chunk,
        ← List.flatten_append, ← List.map_append, List.take_append_drop]
    · simp [hchunk]
  · obtain ⟨h1, h2, -⟩ := hpre ds s chunk hcut2 hchunk
    have hrx : ({ receive_all s ds with rx := (receive_all s ds).rx ++ chunk } :
        State (List Nat)).rx = op :: le32 a ++ payload ++ [] := by
      simp only [h1, hs, List.nil_append, List.append_nil]; exact hcut
    unfold receive
    rcases hop with ⟨h, hp⟩ | ⟨h, hp⟩
    · subst h
      rw [rx_cb_WRITE_FLASH w _ a payload [] ha hp hrx]
      simp [h2]
    · subst h
      rw [rx_cb_ISD1200_WRITE_FLASH w _ a payload [] ha hp hrx]
      simp [h2, ISD1200_WRITE_FLASH, WRITE_FLASH]

theorem write_frame_dispatched_once_when_complete_witness :
    (power_on []).rx = [] ∧ 0x12345 < 4294967296 ∧
    ((WRITE_FLASH = WRITE_FLASH ∧ sample_payload.length = 528) ∨
      (WRITE_FLASH = ISD1200_WRITE_FLASH ∧ sample_payload.length = 16)) ∧
    (([([WRITE_FLASH, 0x45], sample_world), ([0x23, 0x01, 0x00], sample_world)].map
        Prod.fst).flatten ++ sample_payload = WRITE_FLASH :: le32 0x12345 ++ sample_payload) ∧
    sample_payload ≠ [] ∧
    (receive (receive_all (power_on [])
        [([WRITE_FLASH, 0x45], sample_world), ([0x23, 0x01, 0x00], sample_world)])
        (sample_payload, sample_world)).rx = [] :=
  ⟨rfl, by decide, Or.inl ⟨rfl, List.length_replicate _ _⟩, rfl, by decide,
   (write_frame_dispatched_once_when_complete (power_on []) WRITE_FLASH 0x12345 sample_payload
      [([WRITE_FLASH, 0x45], sample_world), ([0x23, 0x01, 0x00], sample_world)]
      sample_payload sample_world rfl (by decide)
      (Or.inl ⟨rfl, List.length_replicate _ _⟩) rfl (by decide)).2.2⟩

/-- C5: starting from the session that a dispatched READ_FLASH_STREAM frame
with parameter `N` creates, with every block read returning status 0 and the
outbound channel always reporting at least 532 free bytes: after `n` calls of
`stream()` the calls made are, for the blocks `0 .. min n N - 1` in ascending
order, the read of block `i` followed by one write of the four zero status
bytes, the 512 data bytes and the 16 spare bytes read at block `i`; `do_stream`
is true exactly while `n ≤ N`, and `stream_offset` is `min n N`.  So the first
`N` calls send one frame each, call `N + 1` sends nothing and clears
`do_stream`, and later calls send and read nothing.  Every frame is 532 bytes
long. -/
theorem stream_sends_N_frames_then_stops (w0 : World) (s0 : State (List Nat)) (N : Nat)
    (rest : List Nat) (env : Nat → World) (hN : N < 4294967296)
    (hrx : s0.rx = READ_FLASH_STREAM :: le32 N ++ rest)
    (hok : ∀ i a, ((env i).xbox_nand_read_block a).status = 0)
    (hcap : ∀ i, 532 ≤ u32 (env i).tud_cdc_write_available) :
    (∀ n, (stream_calls env n (tud_cdc_rx_cb fifo w0 s0)).log =
        (tud_cdc_rx_cb fifo w0 s0).log ++ (List.range (min n N)).flatMap (fun i =>
          [Call.xbox_nand_read_block i,
           Call.tud_cdc_write ([0, 0, 0, 0] ++ ((env i).xbox_nand_read_block i).data ++
             ((env i).xbox_nand_read_block i).spare)]) ∧
      (stream_calls env n (tud_cdc_rx_cb fifo w0 s0)).do_stream = decide (n ≤ N) ∧
      (stream_calls env n (tud_cdc_rx_cb fifo w0 s0)).stream_offset = min n N) ∧
    (∀ i, ([0, 0, 0, 0] ++ ((env i).xbox_nand_read_block i).data ++
        ((env i).xbox_nand_read_block i).spare).length = 532) := by
  refine ⟨fun n => ?_, fun i => ?_⟩
  · have hs1 := rx_cb_READ_FLASH_STREAM w0 s0 N rest hN hrx
    have hact : (tud_cdc_rx_cb fifo w0 s0).do_stream = true := by rw [hs1]
    have hoff : (tud_cdc_rx_cb fifo w0 s0).stream_offset = 0 := by rw [hs1]
    have hend : (tud_cdc_rx_cb fifo w0 s0).stream_end = N := by rw [hs1]
    have h := stream_calls_all_ok env (tud_cdc_rx_cb fifo w0 s0) hact hoff (by rw [hend]; exact hN)
      (fun i _ => by rw [hok]; rfl) (fun i _ => hcap i) n
    rw [hend] at h
    rw [h, ← stream_frames_eq]
    exact ⟨rfl, rfl, rfl⟩
  · simp [NandRead.data_length, NandRead.spare_length]

theorem stream_sends_N_frames_then_stops_witness :
    (2 < 4294967296) ∧
    (power_on (READ_FLASH_STREAM :: le32 2 ++ [])).rx = READ_FLASH_STREAM :: le32 2 ++ [] ∧
    (∀ (i : Nat) (a : Nat), (((fun _ => sample_world) i).xbox_nand_read_block a).status = 0) ∧
    (∀ i : Nat, 532 ≤ u32 ((fun _ => sample_world) i).tud_cdc_write_available) ∧
    (stream_calls (fun _ => sample_world) 3
        (tud_cdc_rx_cb fifo sample_world
          (power_on (READ_FLASH_STREAM :: le32 2 ++ [])))).do_stream = decide (3 ≤ 2) ∧
    (stream_calls (fun _ => sample_world) 3
        (tud_cdc_rx_cb fifo sample_world
          (power_on (READ_FLASH_STREAM :: le32 2 ++ [])))).stream_offset = min 3 2 :=
  ⟨by decide, rfl, fun _ _ => rfl,
   fun _ => (by decide : 532 ≤ u32 sample_world.tud_cdc_write_available),
   ((stream_sends_N_frames_then_stops sample_world
      (power_on (READ_FLASH_STREAM :: le32 2 ++ [])) 2 [] (fun _ => sample_world)
      (by decide) rfl (fun _ _ => rfl)
      (fun _ => (by decide : 532 ≤ u32 sample_world.tud_cdc_write_available))).1 3).2⟩

/-- C6: starting from the session that a dispatched READ_FLASH_STREAM frame
with parameter `N` creates, with `k < N`, every read of a block below `k`
returning status 0, the read of block `k` returning the non-zero 32-bit status
`r`, and the outbound channel always reporting at least 532 free bytes: after
`n` calls of `stream()` the calls made are the reads and 532-byte frames of the
blocks `0 .. min n k - 1` in order, followed, once `n > k`, by the read of block
`k` and one write of the four little-endian bytes of `r`; `do_stream` is true
exactly while `n ≤ k`.  So `k` frames and one 4-byte message are sent, and no
later call of `stream()` writes or reads anything. -/
theorem stream_stops_at_first_failed_read (w0 : World) (s0 : State (List Nat)) (k N r : Nat)
    (rest : List Nat) (env : Nat → World) (hk : k < N) (hN : N < 4294967296)
    (hrx : s0.rx = READ_FLASH_STREAM :: le32 N ++ rest)
    (hok : ∀ i a, a < k → ((env i).xbox_nand_read_block a).status = 0)
    (hfail : ∀ i, ((env i).xbox_nand_read_block k).status = r)
    (hr0 : r ≠ 0) (hr : r < 4294967296)
    (hcap : ∀ i, 532 ≤ u32 (env i).tud_cdc_write_available) :
    (∀ n, (stream_calls env n (tud_cdc_rx_cb fifo w0 s0)).log =
        (tud_cdc_rx_cb fifo w0 s0).log ++ (List.range (min n k)).flatMap (fun i =>
          [Call.xbox_nand_read_block i,
           Call.tud_cdc_write ([0, 0, 0, 0] ++ ((env i).xbox_nand_read_block i).data ++
             ((env i).xbox_nand_read_block i).spare)]) ++
          (if k < n then [Call.xbox_nand_read_block k, Call.tud_cdc_write (le32 r)] else []) ∧
      (stream_calls env n (tud_cdc_rx_cb fifo w0 s0)).do_stream = decide (n ≤ k) ∧
      (stream_calls env n (tud_cdc_rx_cb fifo w0 s0)).stream_offset = min n k) ∧
    (∀ i, ([0, 0, 0, 0] ++ ((env i).xbox_nand_read_block i).data ++
        ((env i).xbox_nand_read_block i).spare).length = 532) ∧
    (le32 r).length = 4 := by
  refine ⟨fun n => ?_, fun i => ?_, rfl⟩
  · have hs1 := rx_cb_READ_FLASH_STREAM w0 s0 N rest hN hrx
    have hact : (tud_cdc_rx_cb fifo w0 s0).do_stream = true := by rw [hs1]
    have hoff : (tud_cdc_rx_cb fifo w0 s0).stream_offset = 0 := by rw [hs1]
    have hend : (tud_cdc_rx_cb fifo w0 s0).stream_end = N := by rw [hs1]
    have h := stream_calls_fail_at env (tud_cdc_rx_cb fifo w0 s0) k r hact hoff
      (by rw [hend]; exact hk) (by rw [hend]; exact hN)
      (fun i hi => by rw [hok i i hi]; rfl) (hfail k)
      (by rw [u32_of_lt r hr]; exact hr0) (fun i _ => hcap i) n
    rw [u32_of_lt r hr] at h
    rw [h, ← stream_frames_eq]
    exact ⟨rfl, rfl, rfl⟩
  · simp [NandRead.data_length, NandRead.spare_length]

theorem stream_stops_at_first_failed_read_witness :
    (0 < 3) ∧ (3 < 4294967296) ∧
    (power_on (READ_FLASH_STREAM :: le32 3 ++ [])).rx = READ_FLASH_STREAM :: le32 3 ++ [] ∧
    (∀ (i : Nat) (a : Nat), a < 0 →
      (((fun _ => sample_failing_world) i).xbox_nand_read_block a).status = 0) ∧
    (∀ i : Nat, (((fun _ => sample_failing_world) i).xbox_nand_read_block 0).status = 0x8000) ∧
    (0x8000 ≠ 0) ∧ (0x8000 < 4294967296) ∧
    (∀ i : Nat, 532 ≤ u32 ((fun _ => sample_failing_world) i).tud_cdc_write_available) ∧
    (stream_calls (fun _ => sample_failing_world) 2
        (tud_cdc_rx_cb fifo sample_world
          (power_on (READ_FLASH_STREAM :: le32 3 ++ [])))).do_stream = decide (2 ≤ 0) :=
  ⟨by decide, by decide, rfl, fun _ a ha => absurd ha (Nat.not_lt_zero a), fun _ => rfl,
   by decide, by decide,
   fun _ => (by decide : 532 ≤ u32 sample_failing_world.tud_cdc_write_available),
   ((stream_stops_at_first_failed_read sample_world
      (power_on (READ_FLASH_STREAM :: le32 3 ++ [])) 0 3 0x8000 []
      (fun _ => sample_failing_world) (by decide) (by decide) rfl
      (fun _ a ha => absurd ha (Nat.not_lt_zero a)) (fun _ => rfl) (by decide) (by decide)
      (fun _ => (by decide : 532 ≤ u32 sample_failing_world.tud_cdc_write_available))).1
      2).2.1⟩

/-- C7: with the answers of the world fixed apart from the free outbound
capacity: (1) a call of `stream()` on an active session with
`stream_offset < stream_end` and fewer than 532 free bytes changes nothing at
all; (2) for every schedule `caps` of per-call capacities and every schedule
`full` whose capacities are all at least 532, the calls made under `caps` are an
initial part of the calls made under `full`, as soon as `full` is at least as
long as the number of entries of `caps` with room, or runs until the stream has
ended: no read or frame is dropped, duplicated or reordered; (3) the two
records are equal once `caps` has as many entries with room as the
unconstrained run needs calls to end; (4) the unconstrained run does end,
within `stream_end - stream_offset + 1` calls. -/
theorem capacity_deferral_only_delays {σ : Type} (w : World) (s : State σ) :
    (∀ c, s.do_stream = true → s.stream_offset < s.stream_end → u32 c < 532 →
      stream { w with tud_cdc_write_available := c } s = s) ∧
    (∀ caps full : List Nat, (∀ c ∈ full, 532 ≤ u32 c) →
      ((caps.filter (fun c => decide (532 ≤ u32 c))).length ≤ full.length ∨
        (stream_sched w full s).do_stream = false) →
      (stream_sched w caps s).log <+: (stream_sched w full s).log) ∧
    (∀ (caps full : List Nat) (k : Nat), (∀ c ∈ full, 532 ≤ u32 c) →
      (stream_sched w (full.take k) s).do_stream = false →
      k ≤ (caps.filter (fun c => decide (532 ≤ u32 c))).length →
      (stream_sched w caps s).log = (stream_sched w full s).log) ∧
    (s.stream_end < 4294967296 →
      (stream_sched w (List.replicate (s.stream_end - s.stream_offset + 1) 532) s).do_stream
        = false) := by
  refine ⟨fun c hact hlt hc => stream_defer _ s hact hlt hc, ?_, ?_, ?_⟩
  · intro caps full hfull h
    rw [stream_sched_vs_iterate w caps s s (Or.inl rfl), stream_sched_ample w full s hfull]
    apply iterate_stream_mono
    rcases h with h | h
    · exact Or.inl h
    · right; rw [← stream_sched_ample w full s hfull]; exact h
  · intro caps full k hfull hdone hk
    rw [stream_sched_vs_iterate w caps s s (Or.inl rfl), stream_sched_ample w full s hfull]
    rw [stream_sched_ample w (full.take k) s (fun c hc => hfull c (List.mem_of_mem_take hc))]
      at hdone
    have hfin : ∀ m, (full.take k).length ≤ m →
        (stream { w with tud_cdc_write_available := 532 })^[m] s =
          (stream { w with tud_cdc_write_available := 532 })^[(full.take k).length] s := by
      intro m hm
      obtain ⟨j, rfl⟩ : ∃ j, m = j + (full.take k).length := ⟨m - (full.take k).length, by omega⟩
      rw [Function.iterate_add_apply, iterate_stream_inactive _ j _ hdone]
    have hlen : (full.take k).length ≤ k := by simp [List.length_take]
    have hlen2 : (full.take k).length ≤ full.length := by simp [List.length_take]
    rw [hfin _ (by omega), hfin _ hlen2]
  · intro hend
    rw [stream_sched_ample w _ s (by
      intro c hc
      rw [List.eq_of_mem_replicate hc]; decide), List.length_replicate]
    exact iterate_stream_finishes _ (show 532 ≤ u32 532 by decide) _ s hend (Nat.le_refl _)

theorem capacity_deferral_only_delays_witness :
    (∀ c ∈ [532, 1024, 600], 532 ≤ u32 c) ∧
    (stream_sched sample_world ([532, 1024, 600].take 3)
      { power_on [] with do_stream := true, stream_end := 2 }).do_stream = false ∧
    3 ≤ ([0, 600, 100, 700, 0, 0, 532].filter (fun c => decide (532 ≤ u32 c))).length ∧
    (stream_sched sample_world [0, 600, 100, 700, 0, 0, 532]
      { power_on [] with do_stream := true, stream_end := 2 }).log =
    (stream_sched sample_world [532, 1024, 600]
      { power_on [] with do_stream := true, stream_end := 2 }).log :=
  ⟨by decide, by decide, by decide,
   (capacity_deferral_only_delays sample_world
      { power_on [] with do_stream := true, stream_end := 2 }).2.2.1
      [0, 600, 100, 700, 0, 0, 532] [532, 1024, 600] 3 (by decide) (by decide) (by decide)⟩

/-- C8: for every state (whatever its session) and every 32-bit `M`,
dispatching a READ_FLASH_STREAM frame with the little-endian parameter `M`
makes one call only, the flush of the outbound channel: no byte is written and
no flash block is read.  It leaves `do_stream = true`, `stream_offset = 0` and
`stream_end = M`, and removes the five bytes of the frame. -/
theorem read_flash_stream_starts_session (w : World) (s : State (List Nat)) (M : Nat)
    (rest : List Nat) (hM : M < 4294967296)
    (hrx : s.rx = READ_FLASH_STREAM :: le32 M ++ rest) :
    (tud_cdc_rx_cb fifo w s).log = s.log ++ [Call.tud_cdc_write_flush] ∧
    (tud_cdc_rx_cb fifo w s).do_stream = true ∧
    (tud_cdc_rx_cb fifo w s).stream_offset = 0 ∧
    (tud_cdc_rx_cb fifo w s).stream_end = M ∧
    (tud_cdc_rx_cb fifo w s).rx = rest := by
  rw [rx_cb_READ_FLASH_STREAM w s M rest hM hrx]
  exact ⟨rfl, rfl, rfl, rfl, rfl⟩

theorem read_flash_stream_starts_session_witness :
    (0x400 < 4294967296) ∧
    ({ power_on (READ_FLASH_STREAM :: le32 0x400 ++ [GET_VERSION]) with
        do_stream := true, stream_offset := 5, stream_end := 9 } : State (List Nat)).rx =
      READ_FLASH_STREAM :: le32 0x400 ++ [GET_VERSION] ∧
    (tud_cdc_rx_cb fifo sample_world
      { power_on (READ_FLASH_STREAM :: le32 0x400 ++ [GET_VERSION]) with
        do_stream := true, stream_offset := 5, stream_end := 9 }).stream_end = 0x400 :=
  ⟨by decide, rfl,
   (read_flash_stream_starts_session sample_world
      { power_on (READ_FLASH_STREAM :: le32 0x400 ++ [GET_VERSION]) with
        do_stream := true, stream_offset := 5, stream_end := 9 }
      0x400 [GET_VERSION] (by decide) rfl).2.2.2.1⟩

/-- C9: take any state (any stream in progress) whose inbound queue starts
with a READ_FLASH_STREAM frame of parameter `M`, and the power-on state with
the same frame.  After the frame is dispatched in both, any `n` calls of
`stream()` against the same worlds make the same calls in both, the block reads
and the writes with their bytes, in the same order, and leave the same session.
Every block read after the dispatch is below `M`: nothing of the superseded
range beyond the new one is read or sent. -/
theorem second_read_flash_stream_supersedes (w0 w1 : World) (s : State (List Nat)) (M : Nat)
    (rest : List Nat) (env : Nat → World) (n : Nat) (hM : M < 4294967296)
    (hrx : s.rx = READ_FLASH_STREAM :: le32 M ++ rest) :
    ∃ L,
      (stream_calls env n (tud_cdc_rx_cb fifo w0 s)).log = (tud_cdc_rx_cb fifo w0 s).log ++ L ∧
      (stream_calls env n (tud_cdc_rx_cb fifo w1 (power_on (READ_FLASH_STREAM :: le32 M)))).log =
        [Call.tud_cdc_write_flush] ++ L ∧
      (∀ a, Call.xbox_nand_read_block a ∈ L → a < M) ∧
      (stream_calls env n (tud_cdc_rx_cb fifo w0 s)).do_stream =
        (stream_calls env n
          (tud_cdc_rx_cb fifo w1 (power_on (READ_FLASH_STREAM :: le32 M)))).do_stream ∧
      (stream_calls env n (tud_cdc_rx_cb fifo w0 s)).stream_offset =
        (stream_calls env n
          (tud_cdc_rx_cb fifo w1 (power_on (READ_FLASH_STREAM :: le32 M)))).stream_offset ∧
      (stream_calls env n (tud_cdc_rx_cb fifo w0 s)).stream_end =
        (stream_calls env n
          (tud_cdc_rx_cb fifo w1 (power_on (READ_FLASH_STREAM :: le32 M)))).stream_end := by
  have hs1 := rx_cb_READ_FLASH_STREAM w0 s M rest hM hrx
  have ht1 := rx_cb_READ_FLASH_STREAM w1 (power_on (READ_FLASH_STREAM :: le32 M)) M [] hM
    (by simp [power_on])
  obtain ⟨L, a1, a2, a3, a4, a5, a6, -⟩ := stream_calls_same_session env
    (tud_cdc_rx_cb fifo w0 s) (tud_cdc_rx_cb fifo w1 (power_on (READ_FLASH_STREAM :: le32 M)))
    (by rw [hs1, ht1]) (by rw [hs1, ht1]) (by rw [hs1, ht1]) n
  refine ⟨L, a1, ?_, ?_, a4, a5, a6⟩
  · rw [a2, ht1]; simp [power_on]
  · intro a ha
    have := a3 a ha
    rw [hs1] at this
    exact this

theorem second_read_flash_stream_supersedes_witness :
    (1 < 4294967296) ∧
    ({ power_on (READ_FLASH_STREAM :: le32 1 ++ []) with
        do_stream := true, stream_offset := 40, stream_end := 100 } : State (List Nat)).rx =
      READ_FLASH_STREAM :: le32 1 ++ [] ∧
    (∃ L,
      (stream_calls (fun _ => sample_world) 4 (tud_cdc_rx_cb fifo sample_world
        { power_on (READ_FLASH_STREAM :: le32 1 ++ []) with
          do_stream := true, stream_offset := 40, stream_end := 100 })).log =
        (tud_cdc_rx_cb fifo sample_world
          { power_on (READ_FLASH_STREAM :: le32 1 ++ []) with
            do_stream := true, stream_offset := 40, stream_end := 100 }).log ++ L ∧
      (stream_calls (fun _ => sample_world) 4
        (tud_cdc_rx_cb fifo sample_world (power_on (READ_FLASH_STREAM :: le32 1)))).log =
        [Call.tud_cdc_write_flush] ++ L ∧
      (∀ a, Call.xbox_nand_read_block a ∈ L → a < 1)) :=
  ⟨by decide, rfl,
   (second_read_flash_stream_supersedes sample_world sample_world
      { power_on (READ_FLASH_STREAM :: le32 1 ++ []) with
        do_stream := true, stream_offset := 40, stream_end := 100 }
      1 [] (fun _ => sample_world) 4 (by decide) rfl).imp
      (fun _ h => ⟨h.1, h.2.1, h.2.2.1⟩)⟩

/-- C10: for every state and every world (so every free outbound capacity):
if `do_stream` is false, `stream()` changes nothing; if `do_stream` is true and
`stream_offset ≥ stream_end`, `stream()` clears `do_stream` and changes nothing
else, so it writes no byte and reads no block.  In particular the first call
of `stream()` after a dispatched READ_FLASH_STREAM frame with parameter 0 only
clears `do_stream`. -/
theorem stream_idle_or_finished (w w0 : World) (s : State (List Nat)) (s0 : State (List Nat))
    (rest : List Nat) :
    (s.do_stream = false → stream w s = s) ∧
    (s.do_stream = true → s.stream_end ≤ s.stream_offset →
      stream w s = { s with do_stream := false }) ∧
    (s0.rx = READ_FLASH_STREAM :: le32 0 ++ rest →
      stream w (tud_cdc_rx_cb fifo w0 s0) =
        { tud_cdc_rx_cb fifo w0 s0 with do_stream := false }) := by
  refine ⟨stream_inactive w s, stream_done w s, fun hrx => ?_⟩
  have hs1 := rx_cb_READ_FLASH_STREAM w0 s0 0 rest (by decide) hrx
  apply stream_done
  · rw [hs1]
  · rw [hs1]

theorem stream_idle_or_finished_witness :
    (power_on (READ_FLASH_STREAM :: le32 0 ++ [])).rx = READ_FLASH_STREAM :: le32 0 ++ [] ∧
    stream sample_world (tud_cdc_rx_cb fifo sample_world
        (power_on (READ_FLASH_STREAM :: le32 0 ++ []))) =
      { tud_cdc_rx_cb fifo sample_world (power_on (READ_FLASH_STREAM :: le32 0 ++ [])) with
        do_stream := false } :=
  ⟨rfl,
   (stream_idle_or_finished sample_world sample_world (power_on [])
      (power_on (READ_FLASH_STREAM :: le32 0 ++ [])) []).2.2 rfl⟩

/-- C11: when a READ_FLASH frame with the 32-bit little-endian parameter `a`
is buffered, the dispatcher calls `xbox_nand_read_block` once, at address `a`,
writes the four little-endian bytes of the status it returned, then, if and
only if that status is 0, writes the 512 data bytes followed by the 16 spare
bytes that were read, and flushes.  The bytes written are 532 when the status
is 0 and 4 otherwise, and the streaming session is left as it was. -/
theorem read_flash_answers_status_then_block (w : World) (s : State (List Nat)) (a : Nat)
    (rest : List Nat) (ha : a < 4294967296) (hrx : s.rx = READ_FLASH :: le32 a ++ rest) :
    (tud_cdc_rx_cb fifo w s).log =
      s.log ++
        ([Call.xbox_nand_read_block a,
          Call.tud_cdc_write (le32 (u32 (w.xbox_nand_read_block a).status))] ++
         (if u32 (w.xbox_nand_read_block a).status = 0 then
            [Call.tud_cdc_write
              ((w.xbox_nand_read_block a).data ++ (w.xbox_nand_read_block a).spare)]
          else []) ++
         [Call.tud_cdc_write_flush]) ∧
    (written
        ([Call.xbox_nand_read_block a,
          Call.tud_cdc_write (le32 (u32 (w.xbox_nand_read_block a).status))] ++
         (if u32 (w.xbox_nand_read_block a).status = 0 then
            [Call.tud_cdc_write
              ((w.xbox_nand_read_block a).data ++ (w.xbox_nand_read_block a).spare)]
          else []) ++
         [Call.tud_cdc_write_flush])).length =
      (if u32 (w.xbox_nand_read_block a).status = 0 then 532 else 4) ∧
    (le32 (u32 (w.xbox_nand_read_block a).status)).length = 4 ∧
    ((w.xbox_nand_read_block a).data ++ (w.xbox_nand_read_block a).spare).length = 528 ∧
    (w.xbox_nand_read_block a).data.length = 512 ∧
    (w.xbox_nand_read_block a).spare.length = 16 ∧
    (tud_cdc_rx_cb fifo w s).do_stream = s.do_stream ∧
    (tud_cdc_rx_cb fifo w s).stream_offset = s.stream_offset ∧
    (tud_cdc_rx_cb fifo w s).stream_end = s.stream_end := by
  have hlen : needed_data READ_FLASH ≤ s.rx.length := by
    rw [needed_data_plain _ (by decide) (by decide), hrx]; simp [le32]
  rw [rx_cb_frame w s _ a rest ha hrx hlen]
  have hs := led_blink_session w s
  have hd := (w.xbox_nand_read_block a).data_length
  have hsp := (w.xbox_nand_read_block a).spare_length
  refine ⟨?_, ?_, rfl, ?_, hd, hsp, ?_, ?_, ?_⟩
  · simp only [spec_dispatch, decode_opcode, handler, READ_FLASH, State.call]
    split_ifs <;> simp [flush_end, State.call, led_blink_log]
  · split_ifs <;> simp [written, le32, hd, hsp]
  · simp [hd, hsp]
  all_goals
    simp only [spec_dispatch, decode_opcode, handler, READ_FLASH, State.call]
    split_ifs <;> simp [flush_end, State.call, hs]

theorem read_flash_answers_status_then_block_witness :
    (7 < 4294967296) ∧
    (power_on (READ_FLASH :: le32 7 ++ [])).rx = READ_FLASH :: le32 7 ++ [] ∧
    (written
        ([Call.xbox_nand_read_block 7,
          Call.tud_cdc_write (le32 (u32 (sample_world.xbox_nand_read_block 7).status))] ++
         (if u32 (sample_world.xbox_nand_read_block 7).status = 0 then
            [Call.tud_cdc_write
              ((sample_world.xbox_nand_read_block 7).data ++
                (sample_world.xbox_nand_read_block 7).spare)]
          else []) ++
         [Call.tud_cdc_write_flush])).length =
      (if u32 (sample_world.xbox_nand_read_block 7).status = 0 then 532 else 4) ∧
    (tud_cdc_rx_cb fifo sample_world (power_on (READ_FLASH :: le32 7 ++ []))).do_stream =
      (power_on (READ_FLASH :: le32 7 ++ [])).do_stream :=
  ⟨by decide, rfl,
   (read_flash_answers_status_then_block sample_world (power_on (READ_FLASH :: le32 7 ++ []))
      7 [] (by decide) rfl).2.1,
   (read_flash_answers_status_then_block sample_world (power_on (READ_FLASH :: le32 7 ++ []))
      7 [] (by decide) rfl).2.2.2.2.2.2.1⟩

/-- C12: when a GET_VERSION frame is buffered, whatever its four parameter
bytes, the state and the world, the dispatcher makes exactly two calls: one
write of the four bytes 02 00 00 00 and the flush.  No peripheral is called, the
five bytes of the frame are consumed and the session is left as it was. -/
theorem get_version_answers_two (w : World) (s : State (List Nat)) (b1 b2 b3 b4 : Nat)
    (rest : List Nat) (hrx : s.rx = GET_VERSION :: b1 :: b2 :: b3 :: b4 :: rest) :
    (tud_cdc_rx_cb fifo w s).log =
      s.log ++ [Call.tud_cdc_write [2, 0, 0, 0], Call.tud_cdc_write_flush] ∧
    (tud_cdc_rx_cb fifo w s).rx = rest ∧
    (tud_cdc_rx_cb fifo w s).do_stream = s.do_stream ∧
    (tud_cdc_rx_cb fifo w s).stream_offset = s.stream_offset ∧
    (tud_cdc_rx_cb fifo w s).stream_end = s.stream_end := by
  have hlen : needed_data GET_VERSION ≤ s.rx.length := by
    rw [needed_data_plain _ (by decide) (by decide), hrx]; simp
  rw [rx_cb_header w s _ _ _ _ _ _ hrx hlen]
  have hs := led_blink_session w s
  simp [spec_dispatch, decode_opcode, handler, flush_end, State.call, GET_VERSION,
    led_blink_log, le32, hs]

theorem get_version_answers_two_witness :
    (power_on [GET_VERSION, 0xDE, 0xAD, 0xBE, 0xEF]).rx =
      GET_VERSION :: 0xDE :: 0xAD :: 0xBE :: 0xEF :: [] ∧
    (tud_cdc_rx_cb fifo sample_world (power_on [GET_VERSION, 0xDE, 0xAD, 0xBE, 0xEF])).log =
      (power_on [GET_VERSION, 0xDE, 0xAD, 0xBE, 0xEF]).log ++
        [Call.tud_cdc_write [2, 0, 0, 0], Call.tud_cdc_write_flush] :=
  ⟨rfl,
   (get_version_answers_two sample_world (power_on [GET_VERSION, 0xDE, 0xAD, 0xBE, 0xEF])
      0xDE 0xAD 0xBE 0xEF [] rfl).1⟩

/-- C13: when an ISD1200_INIT frame is buffered, the dispatcher calls
`isd1200_init` once, writes exactly one byte and flushes; the byte is 0 if and
only if `isd1200_init` returned true, and 1 if and only if it returned false. -/
theorem isd_init_answers_one_byte (w : World) (s : State (List Nat)) (b1 b2 b3 b4 : Nat)
    (rest : List Nat) (hrx : s.rx = ISD1200_INIT :: b1 :: b2 :: b3 :: b4 :: rest) :
    (tud_cdc_rx_cb fifo w s).log =
      s.log ++ [Call.isd1200_init, Call.tud_cdc_write [if w.isd1200_init then 0 else 1],
        Call.tud_cdc_write_flush] ∧
    ((if w.isd1200_init then 0 else 1) = 0 ↔ w.isd1200_init = true) ∧
    ((if w.isd1200_init then 0 else 1) = 1 ↔ w.isd1200_init = false) := by
  have hlen : needed_data ISD1200_INIT ≤ s.rx.length := by
    rw [needed_data_plain _ (by decide) (by decide), hrx]; simp
  rw [rx_cb_header w s _ _ _ _ _ _ hrx hlen]
  refine ⟨?_, ?_, ?_⟩
  · simp [spec_dispatch, decode_opcode, handler, flush_end, State.call, ISD1200_INIT,
      led_blink_log]
  · cases w.isd1200_init <;> simp
  · cases w.isd1200_init <;> simp

theorem isd_init_answers_one_byte_witness :
    (power_on [ISD1200_INIT, 0, 0, 0, 0]).rx = ISD1200_INIT :: 0 :: 0 :: 0 :: 0 :: [] ∧
    (tud_cdc_rx_cb fifo sample_world (power_on [ISD1200_INIT, 0, 0, 0, 0])).log =
      (power_on [ISD1200_INIT, 0, 0, 0, 0]).log ++
        [Call.isd1200_init, Call.tud_cdc_write [if sample_world.isd1200_init then 0 else 1],
          Call.tud_cdc_write_flush] :=
  ⟨rfl,
   (isd_init_answers_one_byte sample_world (power_on [ISD1200_INIT, 0, 0, 0, 0])
      0 0 0 0 [] rfl).1⟩

/-- C14: when a frame of ISD1200_DEINIT, ISD1200_ERASE_FLASH,
ISD1200_PLAY_VOICE, ISD1200_EXEC_MACRO or ISD1200_RESET is buffered, or a frame
of ISD1200_WRITE_FLASH with its 16 payload bytes, the dispatcher makes the one
voice-chip call of that opcode (with the frame's parameter, and the payload for
the write), then one write, then the flush.  The bytes written are the single
byte 00, and 00 00 00 00 for ISD1200_WRITE_FLASH, for every parameter, payload,
state and world: no answer of the voice chip enters them. -/
theorem isd_status_is_always_zero (w : World) (s : State (List Nat)) (op b1 b2 b3 b4 : Nat)
    (rest : List Nat)
    (hop : op = ISD1200_DEINIT ∨ op = ISD1200_ERASE_FLASH ∨ op = ISD1200_PLAY_VOICE ∨
      op = ISD1200_EXEC_MACRO ∨ op = ISD1200_RESET ∨
      (op = ISD1200_WRITE_FLASH ∧ 16 ≤ rest.length))
    (hrx : s.rx = op :: b1 :: b2 :: b3 :: b4 :: rest) :
    (tud_cdc_rx_cb fifo w s).log =
      s.log ++
        [(if op = ISD1200_DEINIT then Call.isd1200_deinit
          else if op = ISD1200_ERASE_FLASH then Call.isd1200_chip_erase
          else if op = ISD1200_WRITE_FLASH then
            Call.isd1200_flash_write (u32 (b1 + 256 * b2 + 65536 * b3 + 16777216 * b4))
              (rest.take 16)
          else if op = ISD1200_PLAY_VOICE then
            Call.isd1200_play_vp (u32 (b1 + 256 * b2 + 65536 * b3 + 16777216 * b4))
          else if op = ISD1200_EXEC_MACRO then
            Call.isd1200_exe_vm (u32 (b1 + 256 * b2 + 65536 * b3 + 16777216 * b4))
          else Call.isd1200_reset),
         Call.tud_cdc_write (if op = ISD1200_WRITE_FLASH then [0, 0, 0, 0] else [0]),
         Call.tud_cdc_write_flush] := by
  have hlen : needed_data op ≤ s.rx.length := by
    rw [needed_data_eq, hrx]
    rcases hop with h | h | h | h | h | ⟨h, h16⟩ <;>
      simp [h, WRITE_FLASH, ISD1200_WRITE_FLASH, ISD1200_DEINIT, ISD1200_ERASE_FLASH,
        ISD1200_PLAY_VOICE, ISD1200_EXEC_MACRO, ISD1200_RESET]
    omega
  rw [rx_cb_header w s _ _ _ _ _ _ hrx hlen]
  rcases hop with h | h | h | h | h | ⟨h, h16⟩
  all_goals
    first
    | have h16n : ¬ rest.length < 16 := Nat.not_lt.mpr (by assumption)
      simp [h, h16n, spec_dispatch, decode_opcode, handler, flush_end, State.call,
        led_blink_log, le32, fifo, WRITE_FLASH, ISD1200_WRITE_FLASH, ISD1200_DEINIT,
        ISD1200_ERASE_FLASH, ISD1200_PLAY_VOICE, ISD1200_EXEC_MACRO, ISD1200_RESET]
    | simp [h, spec_dispatch, decode_opcode, handler, flush_end, State.call, led_blink_log,
        le32, fifo, WRITE_FLASH, ISD1200_WRITE_FLASH, ISD1200_DEINIT, ISD1200_ERASE_FLASH,
        ISD1200_PLAY_VOICE, ISD1200_EXEC_MACRO, ISD1200_RESET]

theorem isd_status_is_always_zero_witness :
    (ISD1200_PLAY_VOICE = ISD1200_DEINIT ∨ ISD1200_PLAY_VOICE = ISD1200_ERASE_FLASH ∨
      ISD1200_PLAY_VOICE = ISD1200_PLAY_VOICE ∨ ISD1200_PLAY_VOICE = ISD1200_EXEC_MACRO ∨
      ISD1200_PLAY_VOICE = ISD1200_RESET ∨
      (ISD1200_PLAY_VOICE = ISD1200_WRITE_FLASH ∧ 16 ≤ ([] : List Nat).length)) ∧
    (power_on [ISD1200_PLAY_VOICE, 3, 0, 0, 0]).rx =
      ISD1200_PLAY_VOICE :: 3 :: 0 :: 0 :: 0 :: [] ∧
    (tud_cdc_rx_cb fifo sample_world (power_on [ISD1200_PLAY_VOICE, 3, 0, 0, 0])).log.length =
      3 :=
  ⟨Or.inr (Or.inr (Or.inl rfl)), rfl,
   (congrArg List.length
      (isd_status_is_always_zero sample_world (power_on [ISD1200_PLAY_VOICE, 3, 0, 0, 0])
        ISD1200_PLAY_VOICE 3 0 0 0 [] (Or.inr (Or.inr (Or.inl rfl))) rfl)).trans rfl⟩

/-- C15: in a running device (whatever its session, so also in the middle of
a stream) bytes arrive that complete a REBOOT_TO_BOOTLOADER frame at the head
of the inbound queue.  The receive callback then makes exactly one call,
`reset_usb_boot`: no byte is written and nothing is flushed.  The device is
halted, and no later step of the main loop, callback invocation or `stream()`
call, changes anything: nothing more is written and no block is read. -/
theorem reboot_is_terminal (w : World) (s : State (List Nat)) (bytes : List Nat)
    (b1 b2 b3 b4 : Nat) (rest : List Nat) (hrun : s.halted = false)
    (hrx : s.rx ++ bytes = REBOOT_TO_BOOTLOADER :: b1 :: b2 :: b3 :: b4 :: rest) :
    (main_step s (Tick.rx bytes w)).log = s.log ++ [Call.reset_usb_boot] ∧
    (main_step s (Tick.rx bytes w)).halted = true ∧
    (∀ ts : List Tick,
      main_run (main_step s (Tick.rx bytes w)) ts = main_step s (Tick.rx bytes w)) := by
  have hlen : needed_data REBOOT_TO_BOOTLOADER ≤
      ({ s with rx := s.rx ++ bytes } : State (List Nat)).rx.length := by
    rw [needed_data_plain _ (by decide) (by decide)]
    simp only [hrx]; simp
  have hstep : main_step s (Tick.rx bytes w) =
      { led_blink w { s with rx := s.rx ++ bytes } with
        rx := rest
        log := s.log ++ [Call.reset_usb_boot]
        halted := true } := by
    have hgo : main_step s (Tick.rx bytes w) =
        tud_cdc_rx_cb fifo w { s with rx := s.rx ++ bytes } := by
      show (if s.halted = true then s else receive s (bytes, w)) = _
      rw [if_neg (by rw [hrun]; decide)]
      rfl
    rw [hgo, rx_cb_header w _ _ _ _ _ _ _ hrx hlen]
    simp [spec_dispatch, decode_opcode, handler, flush_end, State.call, led_blink_log,
      REBOOT_TO_BOOTLOADER]
  refine ⟨by rw [hstep], by rw [hstep], fun ts => ?_⟩
  exact main_run_halted _ (by rw [hstep]) ts

theorem reboot_is_terminal_witness :
    ({ power_on [] with do_stream := true, stream_offset := 3, stream_end := 100 } :
        State (List Nat)).halted = false ∧
    ({ power_on [] with do_stream := true, stream_offset := 3, stream_end := 100 } :
        State (List Nat)).rx ++ [REBOOT_TO_BOOTLOADER, 0, 0, 0, 0] =
      REBOOT_TO_BOOTLOADER :: 0 :: 0 :: 0 :: 0 :: [] ∧
    (main_step { power_on [] with do_stream := true, stream_offset := 3, stream_end := 100 }
        (Tick.rx [REBOOT_TO_BOOTLOADER, 0, 0, 0, 0] sample_world)).halted = true :=
  ⟨rfl, rfl,
   (reboot_is_terminal sample_world
      { power_on [] with do_stream := true, stream_offset := 3, stream_end := 100 }
      [REBOOT_TO_BOOTLOADER, 0, 0, 0, 0] 0 0 0 0 [] rfl rfl).2.1⟩

/-- C16: for every opcode byte, parameter, inbound channel, world and state,
the five `if` / `else if` chains of the callback, run one after the other, end
exactly as the single match over the opcode with one handler per row of the
opcode table does: the same calls with the same bytes, the same session, the
same inbound channel, and the same way of ending (flush reached or not).  The
conditions of the source that hold for an opcode byte are the one row the table
assigns to it, or none: at most one handler is entered. -/
theorem chains_are_a_single_match {σ : Type} (c : Cdc σ) (w : World) (k : cmd)
    (s : State σ) :
    dispatch c w k s = spec_dispatch c w k s ∧
    flush_end (dispatch c w k s) = flush_end (spec_dispatch c w k s) ∧
    handlers_entered k.cmd = (decode_opcode k.cmd).toList ∧
    (handlers_entered k.cmd).length ≤ 1 := by
  have hent : handlers_entered k.cmd = (decode_opcode k.cmd).toList := by
    rcases opcode_cases k.cmd with h | h | h | h | h | h | h | h | h | h | h | h | h | h | h | h
    all_goals
      first
      | rw [h]; rfl
      | obtain ⟨h0, h1, h2, h3, h4, h5, h6, h7, h8, h9, h10, h11, h12, h13, h14⟩ := h
        have hdec : decode_opcode k.cmd = none := by
          unfold decode_opcode
          split <;> simp_all
        simp [handlers_entered, hdec, h0, h1, h2, h3, h4, h5, h6, h7, h8, h9, h10, h11, h12,
          h13, h14, GET_VERSION, GET_FLASH_CONFIG, READ_FLASH, WRITE_FLASH, READ_FLASH_STREAM,
          ISD1200_INIT, ISD1200_DEINIT, ISD1200_READ_ID, ISD1200_READ_FLASH,
          ISD1200_ERASE_FLASH, ISD1200_WRITE_FLASH, ISD1200_PLAY_VOICE, ISD1200_EXEC_MACRO,
          ISD1200_RESET, REBOOT_TO_BOOTLOADER]
  refine ⟨dispatch_eq_spec_dispatch c w k s, ?_, hent, ?_⟩
  · rw [dispatch_eq_spec_dispatch]
  · rw [hent]
    cases decode_opcode k.cmd <;> simp

/-- C17: for any inbound channel, whose reads may hand over fewer bytes than
asked: if the length check passes, the header read hands over its five bytes,
the header's opcode is WRITE_FLASH (or ISD1200_WRITE_FLASH) and the payload read
hands over a number of bytes other than 528 (respectively 16), then the callback
makes no call at all (no write to the flash or the voice chip, no response, no
flush), leaves the session as it was, and leaves the inbound channel as the two
reads left it: what was consumed is not put back. -/
theorem short_payload_read_abandons_command {σ : Type} (c : Cdc σ) (w : World) (s : State σ)
    (havail : needed_data ((c.tud_cdc_peek s.rx).getD w.stack_cmd) ≤ c.tud_cdc_available s.rx)
    (hhdr : (c.tud_cdc_read s.rx sizeof_cmd).1.length = sizeof_cmd)
    (hshort :
      ((cmd_of_bytes (c.tud_cdc_read s.rx sizeof_cmd).1).cmd = WRITE_FLASH ∧
        (c.tud_cdc_read (c.tud_cdc_read s.rx sizeof_cmd).2 528).1.length ≠ 528) ∨
      ((cmd_of_bytes (c.tud_cdc_read s.rx sizeof_cmd).1).cmd = ISD1200_WRITE_FLASH ∧
        (c.tud_cdc_read (c.tud_cdc_read s.rx sizeof_cmd).2 16).1.length ≠ 16)) :
    (tud_cdc_rx_cb c w s).log = s.log ∧
    (tud_cdc_rx_cb c w s).rx =
      (c.tud_cdc_read (c.tud_cdc_read s.rx sizeof_cmd).2
        (if (cmd_of_bytes (c.tud_cdc_read s.rx sizeof_cmd).1).cmd = WRITE_FLASH
          then 528 else 16)).2 ∧
    (tud_cdc_rx_cb c w s).do_stream = s.do_stream ∧
    (tud_cdc_rx_cb c w s).stream_offset = s.stream_offset ∧
    (tud_cdc_rx_cb c w s).stream_end = s.stream_end ∧
    (tud_cdc_rx_cb c w s).halted = s.halted := by
  have hs := led_blink_session w s
  have hl := led_blink_log w s
  have hcb : tud_cdc_rx_cb c w s =
      flush_end (spec_dispatch c w (cmd_of_bytes (c.tud_cdc_read s.rx sizeof_cmd).1)
        { led_blink w s with rx := (c.tud_cdc_read s.rx sizeof_cmd).2 }) := by
    unfold tud_cdc_rx_cb
    simp only [led_blink_rx, ge_iff_le]
    rw [if_pos havail]
    simp only [hhdr, ne_eq, not_true_eq_false, if_false]
    rw [dispatch_eq_spec_dispatch]
  rw [hcb]
  rcases hshort with ⟨hop, hlen⟩ | ⟨hop, hlen⟩
  · simp [spec_dispatch, hop, decode_opcode, handler, flush_end, WRITE_FLASH, hlen, hl, hs]
  · simp [spec_dispatch, hop, decode_opcode, handler, flush_end, WRITE_FLASH,
      ISD1200_WRITE_FLASH, hlen, hl, hs]

theorem short_payload_read_abandons_command_witness :
    needed_data ((packet_cdc.tud_cdc_peek
        (power_on (WRITE_FLASH :: le32 0 ++ sample_payload)).rx).getD sample_world.stack_cmd) ≤
      packet_cdc.tud_cdc_available (power_on (WRITE_FLASH :: le32 0 ++ sample_payload)).rx ∧
    (packet_cdc.tud_cdc_read (power_on (WRITE_FLASH :: le32 0 ++ sample_payload)).rx
      sizeof_cmd).1.length = sizeof_cmd ∧
    (tud_cdc_rx_cb packet_cdc sample_world
      (power_on (WRITE_FLASH :: le32 0 ++ sample_payload))).log =
      (power_on (WRITE_FLASH :: le32 0 ++ sample_payload)).log :=
  ⟨by simp [packet_cdc, power_on, needed_data_eq, le32, sample_payload_length],
   by simp [packet_cdc, power_on, sizeof_cmd, le32],
   (short_payload_read_abandons_command packet_cdc sample_world
      (power_on (WRITE_FLASH :: le32 0 ++ sample_payload))
      (by simp [packet_cdc, power_on, needed_data_eq, le32, sample_payload_length])
      (by simp [packet_cdc, power_on, sizeof_cmd, le32])
      (Or.inl ⟨by simp [packet_cdc, power_on, sizeof_cmd, le32, cmd_of_bytes],
        by simp [packet_cdc, power_on, sizeof_cmd, le32, sample_payload_length]⟩)).1⟩

/-- C18: on the byte queue (available is its length, peek its first byte, a
read of `n` removes and returns `min n length` bytes), whenever the length check
of the callback passes: the header read returns five bytes; the opcode of the
header is the byte that was peeked; for WRITE_FLASH the payload read returns 528
bytes and for ISD1200_WRITE_FLASH 16, so none of the three early returns is
taken; the callback removes exactly the needed length from the queue; and
unless the opcode is REBOOT_TO_BOOTLOADER the chains run to their end and the
callback finishes with `tud_cdc_write_flush`. -/
theorem fifo_reads_are_never_short (w : World) (s : State (List Nat))
    (h : needed_data ((fifo.tud_cdc_peek s.rx).getD w.stack_cmd) ≤ fifo.tud_cdc_available s.rx) :
    (fifo.tud_cdc_read s.rx sizeof_cmd).1.length = sizeof_cmd ∧
    (cmd_of_bytes (fifo.tud_cdc_read s.rx sizeof_cmd).1).cmd =
      (fifo.tud_cdc_peek s.rx).getD w.stack_cmd ∧
    ((cmd_of_bytes (fifo.tud_cdc_read s.rx sizeof_cmd).1).cmd = WRITE_FLASH →
      (fifo.tud_cdc_read (fifo.tud_cdc_read s.rx sizeof_cmd).2 528).1.length = 528) ∧
    ((cmd_of_bytes (fifo.tud_cdc_read s.rx sizeof_cmd).1).cmd = ISD1200_WRITE_FLASH →
      (fifo.tud_cdc_read (fifo.tud_cdc_read s.rx sizeof_cmd).2 16).1.length = 16) ∧
    (tud_cdc_rx_cb fifo w s).rx =
      s.rx.drop (needed_data ((fifo.tud_cdc_peek s.rx).getD w.stack_cmd)) ∧
    ((cmd_of_bytes (fifo.tud_cdc_read s.rx sizeof_cmd).1).cmd ≠ REBOOT_TO_BOOTLOADER →
      ∃ t, dispatch fifo w (cmd_of_bytes (fifo.tud_cdc_read s.rx sizeof_cmd).1)
            { led_blink w s with rx := (fifo.tud_cdc_read s.rx sizeof_cmd).2 } = Flow.next t ∧
        tud_cdc_rx_cb fifo w s = t.call Call.tud_cdc_write_flush) := by
  have h' : needed_data (s.rx.head?.getD w.stack_cmd) ≤ s.rx.length := h
  obtain ⟨b, b1, b2, b3, b4, tl, hrx⟩ := fifo_header_of_ready w s h'
  have hb : needed_data b ≤ s.rx.length := by
    rw [hrx] at h' ⊢; simpa using h'
  have hlen := hb
  rw [hrx, needed_data_eq] at hlen
  simp only [List.length_cons] at hlen
  have hcmd : (cmd_of_bytes (fifo.tud_cdc_read s.rx sizeof_cmd).1).cmd = b := by
    simp [fifo, hrx, sizeof_cmd, cmd_of_bytes]
  have hrest : (fifo.tud_cdc_read s.rx sizeof_cmd).2 = tl := by
    simp [fifo, hrx, sizeof_cmd]
  have hk : cmd_of_bytes (fifo.tud_cdc_read s.rx sizeof_cmd).1 =
      ⟨b, u32 (b1 + 256 * b2 + 65536 * b3 + 16777216 * b4)⟩ := by
    simp [fifo, hrx, sizeof_cmd, cmd_of_bytes]
  refine ⟨?_, ?_, ?_, ?_, ?_, ?_⟩
  · simp [fifo, hrx, sizeof_cmd]
  · rw [hcmd]; simp [fifo, hrx]
  · intro h3
    rw [hcmd] at h3
    rw [hrest, if_pos h3] at *
    simp only [fifo, List.length_take]
    omega
  · intro hA5
    rw [hcmd] at hA5
    have h3 : b ≠ WRITE_FLASH := by rw [hA5]; decide
    rw [hrest, if_neg h3, if_pos hA5] at *
    simp only [fifo, List.length_take]
    omega
  · have hpk : (fifo.tud_cdc_peek s.rx).getD w.stack_cmd = b := by simp [fifo, hrx]
    rw [hpk, rx_cb_ready w s b b1 b2 b3 b4 tl hrx hb, dispatch_rx, hrx, needed_data_eq]
    split_ifs <;> simp
  · intro hboot
    rw [hcmd] at hboot
    rw [hk, hrest, dispatch_eq_spec_dispatch]
    obtain ⟨t, ht⟩ := spec_dispatch_reaches_flush w b
      (u32 (b1 + 256 * b2 + 65536 * b3 + 16777216 * b4)) { led_blink w s with rx := tl } hboot
      (fun h3 => by rw [if_pos h3] at hlen; simp only []; omega)
      (fun hA5 => by
        have h3 : b ≠ WRITE_FLASH := by rw [hA5]; decide
        rw [if_neg h3, if_pos hA5] at hlen; simp only []; omega)
    refine ⟨t, ht, ?_⟩
    rw [rx_cb_header w s b b1 b2 b3 b4 tl hrx hb, ht]
    rfl

theorem fifo_reads_are_never_short_witness :
    needed_data ((fifo.tud_cdc_peek (power_on [READ_FLASH_STREAM, 9, 0, 0, 0, 0xA8]).rx).getD
        sample_world.stack_cmd) ≤
      fifo.tud_cdc_available (power_on [READ_FLASH_STREAM, 9, 0, 0, 0, 0xA8]).rx ∧
    (cmd_of_bytes (fifo.tud_cdc_read (power_on [READ_FLASH_STREAM, 9, 0, 0, 0, 0xA8]).rx
        sizeof_cmd).1).cmd =
      (fifo.tud_cdc_peek (power_on [READ_FLASH_STREAM, 9, 0, 0, 0, 0xA8]).rx).getD
        sample_world.stack_cmd :=
  ⟨by decide,
   (fifo_reads_are_never_short sample_world (power_on [READ_FLASH_STREAM, 9, 0, 0, 0, 0xA8])
      (by decide)).2.1⟩

/-- C19: when the inbound queue holds at least five bytes and the first is
none of the fifteen defined opcodes, the callback consumes exactly those five
bytes and its only call is the flush: it writes no byte, calls no flash,
voice-chip or reset operation, and leaves the session as it was.  An unknown
command is dropped without any answer. -/
theorem unknown_opcode_is_dropped (w : World) (s : State (List Nat)) (b b1 b2 b3 b4 : Nat)
    (rest : List Nat)
    (hb : b ∉ [GET_VERSION, GET_FLASH_CONFIG, READ_FLASH, WRITE_FLASH, READ_FLASH_STREAM,
      ISD1200_INIT, ISD1200_DEINIT, ISD1200_READ_ID, ISD1200_READ_FLASH, ISD1200_ERASE_FLASH,
      ISD1200_WRITE_FLASH, ISD1200_PLAY_VOICE, ISD1200_EXEC_MACRO, ISD1200_RESET,
      REBOOT_TO_BOOTLOADER])
    (hrx : s.rx = b :: b1 :: b2 :: b3 :: b4 :: rest) :
    (tud_cdc_rx_cb fifo w s).rx = rest ∧
    (tud_cdc_rx_cb fifo w s).log = s.log ++ [Call.tud_cdc_write_flush] ∧
    (tud_cdc_rx_cb fifo w s).do_stream = s.do_stream ∧
    (tud_cdc_rx_cb fifo w s).stream_offset = s.stream_offset ∧
    (tud_cdc_rx_cb fifo w s).stream_end = s.stream_end ∧
    (tud_cdc_rx_cb fifo w s).halted = s.halted := by
  simp only [List.mem_cons, List.mem_singleton, not_or, GET_VERSION, GET_FLASH_CONFIG,
    READ_FLASH, WRITE_FLASH, READ_FLASH_STREAM, ISD1200_INIT, ISD1200_DEINIT, ISD1200_READ_ID,
    ISD1200_READ_FLASH, ISD1200_ERASE_FLASH, ISD1200_WRITE_FLASH, ISD1200_PLAY_VOICE,
    ISD1200_EXEC_MACRO, ISD1200_RESET, REBOOT_TO_BOOTLOADER, List.not_mem_nil, not_false_eq_true,
    and_true] at hb
  have hlen : needed_data b ≤ s.rx.length := by
    rw [needed_data_plain _ (by simp [WRITE_FLASH]; omega)
      (by simp [ISD1200_WRITE_FLASH]; omega), hrx]; simp
  rw [rx_cb_header w s _ _ _ _ _ _ hrx hlen]
  have hs := led_blink_session w s
  have hdec : decode_opcode b = none := by
    unfold decode_opcode
    split <;> simp_all
  simp [spec_dispatch, hdec, flush_end, State.call, led_blink_log, hs]

theorem unknown_opcode_is_dropped_witness :
    (0x55 ∉ [GET_VERSION, GET_FLASH_CONFIG, READ_FLASH, WRITE_FLASH, READ_FLASH_STREAM,
      ISD1200_INIT, ISD1200_DEINIT, ISD1200_READ_ID, ISD1200_READ_FLASH, ISD1200_ERASE_FLASH,
      ISD1200_WRITE_FLASH, ISD1200_PLAY_VOICE, ISD1200_EXEC_MACRO, ISD1200_RESET,
      REBOOT_TO_BOOTLOADER]) ∧
    (power_on [0x55, 1, 2, 3, 4, GET_VERSION]).rx = 0x55 :: 1 :: 2 :: 3 :: 4 :: [GET_VERSION] ∧
    (tud_cdc_rx_cb fifo sample_world (power_on [0x55, 1, 2, 3, 4, GET_VERSION])).rx =
      [GET_VERSION] ∧
    (tud_cdc_rx_cb fifo sample_world (power_on [0x55, 1, 2, 3, 4, GET_VERSION])).log =
      (power_on [0x55, 1, 2, 3, 4, GET_VERSION]).log ++ [Call.tud_cdc_write_flush] :=
  ⟨by decide, rfl,
   (unknown_opcode_is_dropped sample_world (power_on [0x55, 1, 2, 3, 4, GET_VERSION])
      0x55 1 2 3 4 [GET_VERSION] (by decide) rfl).1,
   (unknown_opcode_is_dropped sample_world (power_on [0x55, 1, 2, 3, 4, GET_VERSION])
      0x55 1 2 3 4 [GET_VERSION] (by decide) rfl).2.1⟩

/-- C20: in every state reached from power-on by any sequence of main-loop
steps (callback invocations with any arriving bytes, `stream()` calls, any
worlds), `stream_offset ≤ stream_end` and `stream_end < 2^32`.  Hence a call of
`stream()` in such a state leaves `stream_offset` as it is or makes it exactly
one larger, as a natural number: the 32-bit increment does not wrap, whatever
the length of the stream.  And every block `stream()` reads there is below
`stream_end`. -/
theorem stream_offset_never_passes_stream_end (rx0 : List Nat) (ts : List Tick) :
    (main_run (power_on rx0) ts).stream_offset ≤ (main_run (power_on rx0) ts).stream_end ∧
    (main_run (power_on rx0) ts).stream_end < 4294967296 ∧
    (∀ w : World,
      (stream w (main_run (power_on rx0) ts)).stream_offset =
        (main_run (power_on rx0) ts).stream_offset ∨
      (stream w (main_run (power_on rx0) ts)).stream_offset =
        (main_run (power_on rx0) ts).stream_offset + 1) ∧
    (∀ w : World, ∃ L,
      (stream w (main_run (power_on rx0) ts)).log = (main_run (power_on rx0) ts).log ++ L ∧
      ∀ a, Call.xbox_nand_read_block a ∈ L → a < (main_run (power_on rx0) ts).stream_end) := by
  have hb := main_run_bound ts (power_on rx0) (Nat.le_refl 0)
    (show (0 : Nat) < 4294967296 by decide)
  refine ⟨hb.1, hb.2, fun w => (stream_keeps_bound w _ hb.1 hb.2).2.2, fun w => ?_⟩
  obtain ⟨L, h1, -, h3, -⟩ := stream_same_session w (main_run (power_on rx0) ts)
    (main_run (power_on rx0) ts) rfl rfl rfl
  exact ⟨L, h1, h3⟩

end PicoFlasher
